import Mathlib

/-!
Verification development for the DRED map-reduce QA engine
(`map_reduce/document_indexer.py`, `map_reduce/single_doc_qa.py`,
`map_reduce/aggregate_qa.py`, `map_reduce/execution_manager.py`).

The Python code is shallowly embedded: pure computations become Lean
functions, the stateful run store becomes explicit state passing over a
`Store` value, Python exceptions become `Except String`, and in-place
mutation of shared document dicts is modelled with an explicit heap
(`List DocRecord`) addressed by references (`Nat` positions).

String primitives (strip, split, contains, lexicographic comparison,
decimal formatting) are implemented over `List Char` so that every
definition evaluates inside the kernel; `String.mk`/`String.data` form
the boundary to Lean string literals.
-/

deriving instance DecidableEq for Except

namespace DRED

/-! ## Character and string helpers -/

/-- Whitespace test used by the model of Python's `str.strip()`
(space, tab, newline, carriage return). -/
def isPySpace (c : Char) : Bool :=
  c == ' ' || c == '\t' || c == '\n' || c == '\r'

/-- Model of Python `str.strip()` on the character list. -/
def stripChars (l : List Char) : List Char :=
  ((l.dropWhile isPySpace).reverse.dropWhile isPySpace).reverse

/-- Model of Python `str.strip()`. -/
def pyStrip (s : String) : String := String.mk (stripChars s.data)

/-- Character count of a string, as Python `len` counts code points. -/
def pyLen (s : String) : Nat := s.data.length

/-- Does `pat` occur as a contiguous sublist of `l`? -/
def containsSubList (pat : List Char) : List Char → Bool
  | [] => pat.isPrefixOf []
  | c :: t => pat.isPrefixOf (c :: t) || containsSubList pat t

/-- Model of Python's `pat in s` substring test. -/
def pyContains (s pat : String) : Bool := containsSubList pat.data s.data

/-- Index of the first occurrence of `pat` in `l`, model of `str.find`. -/
def findSubList (pat : List Char) : List Char → Option Nat
  | [] => if pat.isPrefixOf ([] : List Char) then some 0 else none
  | c :: t =>
    if pat.isPrefixOf (c :: t) then some 0
    else (findSubList pat t).map (· + 1)

/-- Model of Python `s.find(pat)` returning an index option. -/
def pyFindSub (s pat : String) : Option Nat := findSubList pat.data s.data

/-- Model of the Python slice `s[a:b]`. -/
def pySlice (s : String) (a b : Nat) : String :=
  String.mk ((s.data.drop a).take (b - a))

/-- Split a character list on a single separator character. -/
def splitOnCharAux (sep : Char) : List Char → List Char → List (List Char)
  | [], acc => [acc.reverse]
  | c :: t, acc =>
    if c == sep then acc.reverse :: splitOnCharAux sep t []
    else splitOnCharAux sep t (c :: acc)

/-- Model of Python `s.split(sep)` for a one-character separator. -/
def pySplitChar (s : String) (sep : Char) : List String :=
  (splitOnCharAux sep s.data []).map String.mk

/-- Model of Python `str.lower()` (ASCII case folding). -/
def pyLower (s : String) : String := String.mk (s.data.map Char.toLower)

/-- Model of Python `str.startswith`. -/
def pyStartsWith (s pre : String) : Bool := pre.data.isPrefixOf s.data

/-- Lexicographic comparison on code points, model of Python `<=`
on strings (used only through sorting). -/
def lexLE : List Char → List Char → Bool
  | [], _ => true
  | _ :: _, [] => false
  | a :: as, b :: bs =>
    if a.toNat < b.toNat then true
    else if b.toNat < a.toNat then false
    else lexLE as bs

/-- String comparison used by the models of Python's `sorted`/`list.sort`. -/
def pyStrLE (a b : String) : Bool := lexLE a.data b.data

/-- Model of Python `", ".join(names)` and friends. -/
def pyJoin (sep : String) : List String → String
  | [] => ""
  | [x] => x
  | x :: y :: t => x ++ sep ++ pyJoin sep (y :: t)

/-! ## Decimal formatting (model of `f-string` number formatting) -/

/-- One decimal digit as a character. -/
def digitChar (d : Nat) : Char := Char.ofNat (48 + d)

/-- Little-endian decimal digits, fuel-structured so that it reduces in
the kernel; `decDigitsRev` supplies sufficient fuel. -/
def decDigitsRevFuel : Nat → Nat → List Char
  | 0, _ => []
  | fuel + 1, n =>
    if n < 10 then [digitChar n]
    else digitChar (n % 10) :: decDigitsRevFuel fuel (n / 10)

/-- Little-endian decimal digits of `n`. -/
def decDigitsRev (n : Nat) : List Char := decDigitsRevFuel (n + 1) n

/-- Decimal representation of a natural number, model of Python `str(n)`. -/
def decRepr (n : Nat) : String := String.mk (decDigitsRev n).reverse

/-- Model of the Python format spec `{n:04d}`: pad with zeros to width 4. -/
def pad4 (n : Nat) : String :=
  String.mk (List.replicate (4 - (decDigitsRev n).length) '0') ++ decRepr n

/-- Model of the Python format spec `{n:03d}`. -/
def pad3 (n : Nat) : String :=
  String.mk (List.replicate (3 - (decDigitsRev n).length) '0') ++ decRepr n

/-- Model of the Python format spec `{n:2d}`: pad with spaces to width 2. -/
def pad2sp (n : Nat) : String :=
  String.mk (List.replicate (2 - (decDigitsRev n).length) ' ') ++ decRepr n

/-- Model of the Python format spec `{n:,}`: thousands separators. -/
def commaGroupRev : List Char → List Char
  | a :: b :: c :: d :: t => a :: b :: c :: ',' :: commaGroupRev (d :: t)
  | l => l

/-- Decimal with comma thousands separators, model of `f"{n:,}"`. -/
def commaFmt (n : Nat) : String :=
  String.mk (commaGroupRev (decDigitsRev n)).reverse

/-- Model of `f"{x:.2f}"` for durations.  Wall-clock durations are
environmental; the model measures all phases as zero seconds, so every
formatted duration renders as two decimal places of a natural number. -/
def fmt2f (n : Nat) : String := decRepr n ++ ".00"

/-! ## Path helpers (model of `pathlib.Path` accessors on POSIX paths) -/

/-- Model of `Path.parts` via splitting on `/`.  For absolute paths the
Python root part `/` is represented by a leading empty component, which
agrees with `parts[-2]` lookups for paths with two or more name
components (the only uses in the source). -/
def pathComponents (p : String) : List String := pySplitChar p '/'

/-- Model of `Path.name`: the final path component. -/
def pyName (p : String) : String := (pathComponents p).reverse.headD ""

/-- Index of the last `.` in a name, if any. -/
def lastDotIdx (cs : List Char) : Option Nat :=
  match cs.reverse.findIdx? (· == '.') with
  | some j => some (cs.length - 1 - j)
  | none => none

/-- Model of `Path.stem` on a file name: drop the final extension unless
the only dot is the leading character. -/
def pyStemOfName (name : String) : String :=
  match lastDotIdx name.data with
  | some i => if i = 0 then name else String.mk (name.data.take i)
  | none => name

/-- Model of `Path(p).stem`. -/
def pyStem (p : String) : String := pyStemOfName (pyName p)

/-- Second-to-last path component (`parts[-2]`), when it exists. -/
def parts2 (p : String) : Option String :=
  if (pathComponents p).length ≥ 2 then some ((pathComponents p).reverse.getD 1 "")
  else none

/-- Model of the recurring source idiom
`parts[-2] if len(parts) >= 2 else "root"`. -/
def subdirOrRoot (p : String) : String := (parts2 p).getD "root"

/-- Model of `Path(p).parent.stem`, used for the `category` placeholder
in `create_prompt` (single_doc_qa.py line 99). -/
def pyParentStem (p : String) : String :=
  match parts2 p with
  | some d => pyStemOfName d
  | none => ""

/-! ## JSON-like values and Python dict operations -/

/-- JSON-ish values as stored in `metadata.json`. -/
inductive JVal where
  | s (v : String)
  | n (v : Nat)
  | arr (vs : List JVal)
  | obj (fields : List (String × JVal))

/-- Python dict assignment `d[k] = v`: replace in place if the key is
present, otherwise append. -/
def dictSet (d : List (String × JVal)) (k : String) (v : JVal) :
    List (String × JVal) :=
  if (d.lookup k).isSome then
    d.map fun p => if p.1 = k then (k, v) else p
  else d ++ [(k, v)]

/-- Python `dict.update(u)`: assign every pair of `u` in order. -/
def dictUpdate (d u : List (String × JVal)) : List (String × JVal) :=
  u.foldl (fun acc p => dictSet acc p.1 p.2) d

/-- Lookup expecting a string value. -/
def jGetStr (d : List (String × JVal)) (k : String) : Option String :=
  match d.lookup k with
  | some (JVal.s v) => some v
  | _ => none

/-- Lookup expecting a numeric value. -/
def jGetNat (d : List (String × JVal)) (k : String) : Option Nat :=
  match d.lookup k with
  | some (JVal.n v) => some v
  | _ => none

/-- Lookup expecting a nested object. -/
def jGetObj (d : List (String × JVal)) (k : String) :
    Option (List (String × JVal)) :=
  match d.lookup k with
  | some (JVal.obj fs) => some fs
  | _ => none

/-! ## Document Indexer (`document_indexer.py`)

Python document records are mutable dicts shared between lists.  The
embedding makes the sharing explicit: a heap `List DocRecord` holds the
records, and a Python list of records is a list of heap references
(`List Nat`).  `filter_by_subdir`'s in-place `doc['index'] = i`
assignments become heap updates visible through every alias.
-/

/-- One document record (`_create_document_info`,
document_indexer.py lines 63-97). -/
structure DocRecord where
  index : Nat
  path : String
  relative_path : String
  filename : String
  subdir : String
  size : Nat
  hash : String
deriving DecidableEq, Repr

/-- A file visible to `scan_documents`: its path relative to the base
directory, its byte size, and its content fingerprint (the MD5 prefix is
environmental input, injected here instead of recomputed). -/
structure FileEntry where
  relative_path : String
  size : Nat
  hash : String
deriving DecidableEq, Repr

/-- `DocumentIndexer.__init__` (document_indexer.py lines 20-27):
fail fast when the base directory does not exist. -/
def indexerInit (fsExists : String → Bool) (base_dir : String) :
    Except String String :=
  if fsExists base_dir then Except.ok base_dir
  else Except.error ("Base directory not found: " ++ base_dir)

/-- `_create_document_info` for one file. -/
def createDocumentInfo (base_dir : String) (index : Nat) (f : FileEntry) :
    DocRecord :=
  { index := index
    path := base_dir ++ "/" ++ f.relative_path
    relative_path := f.relative_path
    filename := pyStem f.relative_path
    subdir := subdirOrRoot f.relative_path
    size := f.size
    hash := f.hash }

/-- Read a heap reference (out-of-range reads yield a default record;
all theorems keep references in range). -/
def getRec (heap : List DocRecord) (r : Nat) : DocRecord :=
  heap.getD r { index := 0, path := "", relative_path := "", filename := ""
                subdir := "", size := 0, hash := "" }

/-- In-place update of one record's `index` field. -/
def setIndexAt (heap : List DocRecord) (r i : Nat) : List DocRecord :=
  heap.set r { getRec heap r with index := i }

/-- `scan_documents` (document_indexer.py lines 29-61): create one
record per file in discovery order, sort the list of records by
relative path, then reassign `index := position`.  The result is the
heap of records together with the list of references held by the
returned Python list. -/
def scan_documents (base_dir : String) (files : List FileEntry) :
    List DocRecord × List Nat :=
  let heap0 := files.enum.map fun p => createDocumentInfo base_dir p.1 p.2
  let refs := List.range heap0.length
  let sorted := refs.insertionSort fun a b =>
    pyStrLE (getRec heap0 a).relative_path (getRec heap0 b).relative_path = true
  let heap1 := sorted.enum.foldl (fun h p => setIndexAt h p.2 p.1) heap0
  (heap1, sorted)

/-- `filter_by_subdir` (document_indexer.py lines 121-139): keep the
references whose record's `subdir` is in `subdirs`, then mutate each
kept record's `index` in place to its position in the filtered list. -/
def filter_by_subdir (heap : List DocRecord) (refs : List Nat)
    (subdirs : List String) : List DocRecord × List Nat :=
  let filtered := refs.filter fun r => (getRec heap r).subdir ∈ subdirs
  let heap1 := filtered.enum.foldl (fun h p => setIndexAt h p.2 p.1) heap
  (heap1, filtered)

/-! ## String replacement (model of template placeholder substitution) -/

/-- Replace non-overlapping occurrences of `pat` left to right,
fuel-structured on the input length so that it reduces in the kernel. -/
def replaceAux (pat repl : List Char) : Nat → List Char → List Char
  | 0, l => l
  | _ + 1, [] => []
  | fuel + 1, c :: t =>
    if pat ≠ [] ∧ pat.isPrefixOf (c :: t) then
      repl ++ replaceAux pat repl fuel (t.drop (pat.length - 1))
    else c :: replaceAux pat repl fuel t

/-- Model of Python `str.replace` (and of one `str.format` placeholder
substitution; the templates contain each placeholder literally). -/
def pyReplace (s pat repl : String) : String :=
  String.mk (replaceAux pat.data repl.data s.data.length s.data)

/-! ## QA Worker (`single_doc_qa.py`)

The filesystem is an oracle `String → Option String` from path to text
(the chardet decode step always yields the stored text); the LLM backend
is an oracle from prompt and call index to a response, so that a
deterministic Lean function can model a stateful stub and the number of
backend invocations is observable.  Wall-clock timings are environmental
and measured as zero. -/

/-- The backend response boundary (§6 of the spec): generated text plus
optional token usage (`prompt_eval_count`/`eval_count` may be absent). -/
structure LLMResp where
  text : String
  total_tokens : Option Nat
deriving DecidableEq, Repr

/-- `read_document` (single_doc_qa.py lines 26-49). -/
def read_document (fs : String → Option String) (doc_path : String) :
    Except String String :=
  match fs doc_path with
  | none => Except.error ("Document not found: " ++ doc_path)
  | some content => Except.ok content

/-- `load_prompt_template` (single_doc_qa.py lines 52-75); the provider
is the listing of the `prompts/single_qa` directory as name-content
pairs, and the failure message lists the available names. -/
def load_prompt_template (templates : List (String × String))
    (template_name : String) : Except String String :=
  match templates.lookup template_name with
  | some t => Except.ok t
  | none =>
    Except.error ("Template '" ++ template_name ++ "' not found. " ++
      "Available templates: " ++ pyJoin ", " (templates.map Prod.fst))

/-- `create_prompt` (single_doc_qa.py lines 78-121), batch path: no
conversation history.  `str.format` is modelled by substituting each
named placeholder. -/
def create_prompt (templates : List (String × String))
    (document question doc_path template_name : String) :
    Except String String :=
  match load_prompt_template templates template_name with
  | Except.error e => Except.error e
  | Except.ok template =>
    Except.ok (pyReplace (pyReplace (pyReplace (pyReplace template
      "{document}" document)
      "{category}" (pyParentStem doc_path))
      "{document_name}" (pyStem doc_path))
      "{question}" question)

/-- The connectivity message of `query_llm` (single_doc_qa.py line 292). -/
def connectionErrorMsg : String :=
  "Ollamaサーバーに接続できません。Ollamaが起動していることを確認してください。"

/-- The error wrapping of `query_llm` (single_doc_qa.py lines 290-294). -/
def wrapLLMError (e : String) : String :=
  if pyContains (pyLower e) "connection" then connectionErrorMsg
  else "LLMクエリ中にエラーが発生しました: " ++ e

/-- `query_llm` (single_doc_qa.py lines 160-294): one backend call,
answer text stripped, backend exceptions wrapped. -/
def query_llm (backend : String → Nat → Except String LLMResp)
    (prompt : String) (callIdx : Nat) :
    Except String (String × Option Nat) :=
  match backend prompt callIdx with
  | Except.error e => Except.error (wrapLLMError e)
  | Except.ok resp => Except.ok (pyStrip resp.text, resp.total_tokens)

/-- Per-step timings of one QA invocation (model ticks; zero in this
embedding since wall-clock time is environmental). -/
structure QATiming where
  document_load_time : Nat
  prompt_creation_time : Nat
  llm_query_time : Nat
  total_time : Nat
deriving DecidableEq, Repr

/-- The `metadata` sub-dict of a Single-QA result
(single_doc_qa.py lines 378-388). -/
structure QAMetadata where
  document_length : Nat
  prompt_length : Nat
  timing : QATiming
  total_tokens : Option Nat
deriving DecidableEq, Repr

/-- The result dict of `single_document_qa`
(single_doc_qa.py lines 373-389). -/
structure SingleQAResult where
  document_path : String
  question : String
  template : String
  answer : String
  metadata : QAMetadata
deriving DecidableEq, Repr

/-- The top-level keys of the result dict literal built by
`single_document_qa` (single_doc_qa.py lines 373-389): the dict has
exactly these five keys on every return path. -/
def resultDictKeys (_ : SingleQAResult) : List String :=
  ["document_path", "question", "template", "answer", "metadata"]

/-- `max_retries` (single_doc_qa.py line 343). -/
def max_retries : Nat := 3

/-- The retry loop of `single_document_qa` (lines 343-367).  The first
argument of the recursion is the remaining iteration budget
(`max_retries - retry_count`); the loop carries the number of backend
calls made so far and the latest answer and token usage.  A backend
exception propagates (there is no `try` around `query_llm`). -/
def qaLoop (backend : String → Nat → Except String LLMResp)
    (prompt : String) :
    Nat → Nat → String → Option Nat → Except String (String × Option Nat × Nat)
  | 0, calls, lastAnswer, lastTok => Except.ok (lastAnswer, lastTok, calls)
  | fuel + 1, calls, _, _ =>
    match query_llm backend prompt calls with
    | Except.error e => Except.error e
    | Except.ok (answer, tok) =>
      if answer ≠ "" ∧ 10 ≤ pyLen (pyStrip answer) then
        Except.ok (answer, tok, calls + 1)
      else qaLoop backend prompt fuel (calls + 1) answer tok

/-- `single_document_qa` (single_doc_qa.py lines 297-394), paired with
the number of backend calls performed (an observable of the backend
oracle, not a field of the Python result). -/
def single_document_qa (fs : String → Option String)
    (templates : List (String × String))
    (backend : String → Nat → Except String LLMResp)
    (doc_path question template_name : String) :
    Except String (SingleQAResult × Nat) :=
  match read_document fs doc_path with
  | Except.error e => Except.error e
  | Except.ok document =>
    match create_prompt templates document question doc_path template_name with
    | Except.error e => Except.error e
    | Except.ok prompt =>
      match qaLoop backend prompt max_retries 0 "" none with
      | Except.error e => Except.error e
      | Except.ok (answer, tok, calls) =>
        Except.ok ({ document_path := doc_path
                     question := question
                     template := template_name
                     answer := answer
                     metadata := { document_length := pyLen document
                                   prompt_length := pyLen prompt
                                   timing := ⟨0, 0, 0, 0⟩
                                   total_tokens := tok } }, calls)

/-! ## Map Scheduler (`aggregate_qa.py`, `run_single_qa_batch`)

Workers run concurrently; the list `completionOrder` is the order in
which `concurrent.futures.as_completed` yields the futures (any
permutation of the dispatched documents).  Results are collected in
completion order — a worker exception re-raised by `future.result()`
aborts the collection — and the collected list is then re-sorted by the
original document index (Python `list.sort` is stable; so is the
insertion sort used here). -/

/-- The result collection loop (aggregate_qa.py lines 144-160). -/
def collectResults (worker : DocRecord → Except String SingleQAResult) :
    List DocRecord → Except String (List SingleQAResult)
  | [] => Except.ok []
  | d :: ds =>
    match worker d with
    | Except.error e => Except.error e
    | Except.ok r =>
      match collectResults worker ds with
      | Except.error e => Except.error e
      | Except.ok rs => Except.ok (r :: rs)

/-- The dict comprehension `{doc['path']: doc['index'] for doc in documents}`
(aggregate_qa.py line 163); later entries overwrite earlier ones. -/
def doc_path_to_index (documents : List DocRecord) : List (String × Nat) :=
  documents.map fun d => (d.path, d.index)

/-- Python `dict.get(k, default)` over the association list built in
insertion order (the last binding of a key wins). -/
def pyDictGetNat (d : List (String × Nat)) (k : String) (dflt : Nat) : Nat :=
  (d.reverse.lookup k).getD dflt

/-- The sort key of aggregate_qa.py line 164. -/
def sortKey (documents : List DocRecord) (r : SingleQAResult) : Nat :=
  pyDictGetNat (doc_path_to_index documents) r.document_path 999

/-- `results.sort(key=...)` (aggregate_qa.py line 164). -/
def sortResults (documents : List DocRecord)
    (results : List SingleQAResult) : List SingleQAResult :=
  results.insertionSort fun a b => sortKey documents a ≤ sortKey documents b

/-- `run_single_qa_batch` (aggregate_qa.py lines 90-166), without the
incremental persistence branch (`run_id=None`): dispatch one worker per
document, collect in completion order, re-sort by document index. -/
def run_single_qa_batch (worker : DocRecord → Except String SingleQAResult)
    (documents completionOrder : List DocRecord) :
    Except String (List SingleQAResult) :=
  match collectResults worker completionOrder with
  | Except.error e => Except.error e
  | Except.ok results => Except.ok (sortResults documents results)

/-- The per-document worker closure `run_single_qa`
(aggregate_qa.py lines 106-129): run `single_document_qa` on the
document's path; the call count is not observed by the scheduler. -/
def mkWorker (fs : String → Option String)
    (templates : List (String × String))
    (backend : String → Nat → Except String LLMResp)
    (question template_name : String) (doc : DocRecord) :
    Except String SingleQAResult :=
  match single_document_qa fs templates backend doc.path question template_name with
  | Except.error e => Except.error e
  | Except.ok (r, _) => Except.ok r

/-! ## Run Store (`execution_manager.py`)

One `RunDir` models the on-disk directory of one run: its
`metadata.json` (absent until written), the JSON half of the per-document
result pairs in `single_qa/` (the TXT half carries the same data and is
omitted), the `aggregate_result.txt`, and the debug file
`aggregate_document_answers.txt`. -/

/-- One run directory. -/
structure RunDir where
  name : String
  metadata : Option (List (String × JVal))
  singleQA : List (String × SingleQAResult)
  aggregate : Option String
  debugAnswers : Option String

/-- The base directory of the `ExecutionManager`. -/
structure Store where
  runs : List RunDir

/-- All child directory names (the `(self.base_dir / run_id).exists()`
check sees every directory, with or without `metadata.json`). -/
def dirNames (s : Store) : List String := s.runs.map (·.name)

/-- Find a run directory by name. -/
def getRun (s : Store) (rid : String) : Option RunDir :=
  s.runs.find? (·.name == rid)

/-- Apply `f` to the run directory named `rid` (no-op when absent). -/
def updateRun (s : Store) (rid : String) (f : RunDir → RunDir) : Store :=
  ⟨s.runs.map fun rd => if rd.name == rid then f rd else rd⟩

/-- A freshly created, empty run directory (`mkdir` + `single_qa` mkdir). -/
def emptyRun (rid : String) : RunDir :=
  { name := rid, metadata := none, singleQA := [], aggregate := none
    debugAnswers := none }

/-- `run_dir.mkdir(parents=True, exist_ok=True)`: create the directory
if missing, keep all existing content otherwise. -/
def ensureRun (s : Store) (rid : String) : Store :=
  if (getRun s rid).isSome then s else ⟨s.runs ++ [emptyRun rid]⟩

/-- `list_runs` (execution_manager.py lines 91-97): sorted names of the
directories that contain a `metadata.json`. -/
def list_runs (s : Store) : List String :=
  ((s.runs.filter fun rd => rd.metadata.isSome).map (·.name)).insertionSort
    fun a b => pyStrLE a b = true

/-- `save_metadata` (lines 99-103): overwrite `metadata.json`. -/
def save_metadata (s : Store) (rid : String) (md : List (String × JVal)) :
    Store :=
  updateRun s rid fun rd => { rd with metadata := some md }

/-- `load_metadata` (lines 105-112): fatal not-found error when the
metadata file does not exist. -/
def load_metadata (s : Store) (rid : String) :
    Except String (List (String × JVal)) :=
  match getRun s rid with
  | some rd =>
    match rd.metadata with
    | some md => Except.ok md
    | none => Except.error ("Metadata not found for run_id: " ++ rid)
  | none => Except.error ("Metadata not found for run_id: " ++ rid)

/-- `update_metadata` (lines 114-119): load, `dict.update`, refresh
`updated_at`, save. -/
def update_metadata (s : Store) (rid : String)
    (updates : List (String × JVal)) (now : String) : Except String Store :=
  match load_metadata s rid with
  | Except.error e => Except.error e
  | Except.ok md =>
    Except.ok (save_metadata s rid
      (dictSet (dictUpdate md updates) "updated_at" (JVal.s now)))

/-- The metadata record written by `create_run` (lines 49-57). -/
def freshMetadata (rid now : String) : List (String × JVal) :=
  [("run_id", JVal.s rid), ("created_at", JVal.s now),
   ("status", JVal.s "created"), ("parameters", JVal.obj []),
   ("documents", JVal.arr []), ("results", JVal.obj [])]

/-- Length of the longest directory name (used only to bound the fuel of
the collision-avoidance loop). -/
def maxNameLen (s : Store) : Nat :=
  (dirNames s).foldr (fun n acc => max n.data.length acc) 0

/-- The id format `f"{today}_{next_num:04d}"` (line 74). -/
def mkRunId (today : String) (n : Nat) : String := today ++ "_" ++ pad4 n

/-- The collision-avoidance loop of `_generate_run_id` (lines 76-79),
fuel-structured: try `n`, on collision try `n + 1`.  The fuel supplied
by `generate_run_id` is proven sufficient, so the fuel-exhausted branch
is never reached. -/
def genLoop (dirs : List String) (today : String) :
    Nat → Nat → String
  | 0, n => mkRunId today n
  | fuel + 1, n =>
    if mkRunId today n ∈ dirs then genLoop dirs today fuel (n + 1)
    else mkRunId today n

/-- `_generate_run_id` (execution_manager.py lines 62-81): count the
same-day runs among `list_runs`, start at `count + 1`, and increment
until the name collides with no existing directory. -/
def generate_run_id (s : Store) (today : String) : String :=
  let existing := (list_runs s).filter fun r => pyStartsWith r today
  genLoop (dirNames s) today (10 ^ (maxNameLen s + 1)) (existing.length + 1)

/-- `create_run` (execution_manager.py lines 30-60): pick or generate
the id, create the directories if missing, and (over)write a fresh
metadata record. -/
def create_run (s : Store) (ridOpt : Option String) (today now : String) :
    Store × String :=
  let rid := match ridOpt with
    | some r => r
    | none => generate_run_id s today
  let s1 := ensureRun s rid
  (save_metadata s1 rid (freshMetadata rid now), rid)

/-- `save_aggregate_result` (lines 210-226): overwrite
`aggregate_result.txt`. -/
def save_aggregate_result (s : Store) (rid : String) (result : String) :
    Store :=
  updateRun s rid fun rd => { rd with aggregate := some result }

/-- `load_single_qa_results` (lines 199-208): read the `single_qa`
JSON files sorted by filename. -/
def load_single_qa_results (s : Store) (rid : String) :
    List SingleQAResult :=
  match getRun s rid with
  | none => []
  | some rd =>
    ((rd.singleQA.insertionSort fun a b => pyStrLE a.1 b.1 = true).map (·.2))

/-! ## Reduce Aggregator (`aggregate_qa.py`) -/

/-- Relevance marker scanned in structured answers (line 68). -/
def relevanceMarker : String := "**関連度**:"

/-- Confidence marker scanned in structured answers (line 72). -/
def confidenceMarker : String := "**確度**:"

/-- The relevance/confidence extraction loop of `create_aggregate_prompt`
(aggregate_qa.py lines 65-73). -/
def extractRelConf (answer : String) : String × String :=
  if pyContains answer relevanceMarker then
    (pySplitChar answer '\n').foldl
      (fun rc line =>
        if pyContains line relevanceMarker then
          (pyStrip ((pySplitChar line ':').getD 1 ""), rc.2)
        else if pyContains line confidenceMarker then
          (rc.1, pyStrip ((pySplitChar line ':').getD 1 ""))
        else rc)
      ("不明", "不明")
  else ("不明", "不明")

/-- One per-document block of the consolidated prompt
(aggregate_qa.py lines 75-82). -/
def documentAnswerBlock (i : Nat) (r : SingleQAResult) : String :=
  let subdir := subdirOrRoot r.document_path
  let filename := pyStem r.document_path
  let rc := extractRelConf r.answer
  "\n=== ドキュメント #" ++ decRepr (i + 1) ++ ": " ++ subdir ++ "/" ++
    filename ++ " ===\n関連度: " ++ rc.1 ++ "\n確度: " ++ rc.2 ++ "\n\n" ++
    r.answer ++ "\n=== ドキュメント #" ++ decRepr (i + 1) ++ " 終了 ===\n"

/-- The consolidated prompt rendered by `create_aggregate_prompt`
(aggregate_qa.py lines 84-87): the template with the question and the
joined per-document blocks substituted. -/
def aggPrompt (template question : String)
    (single_results : List SingleQAResult) : String :=
  pyReplace (pyReplace template "{question}" question)
    "{document_answers}"
    (pyJoin "\n" (single_results.enum.map fun p => documentAnswerBlock p.1 p.2))

/-- `create_aggregate_prompt` (aggregate_qa.py lines 26-87): template
lookup with a not-found error listing the available names, then
placeholder substitution with the joined per-document blocks. -/
def create_aggregate_prompt (aggTemplates : List (String × String))
    (question : String) (single_results : List SingleQAResult)
    (template_name : String) : Except String String :=
  match aggTemplates.lookup template_name with
  | none =>
    Except.error ("Aggregate template '" ++ template_name ++ "' not found. " ++
      "Available templates: " ++ pyJoin ", " (aggTemplates.map Prod.fst))
  | some template =>
    Except.ok (aggPrompt template question single_results)

/-- Debug-extraction start marker (aggregate_qa.py line 270). -/
def startMarker : String := "=== DOCUMENT ANSWERS START ==="

/-- Debug-extraction end marker (aggregate_qa.py line 271). -/
def endMarker : String := "=== DOCUMENT ANSWERS END ==="

/-- The debug dump of `_execute_aggregate_phase` (lines 260-278): when
both markers occur in the prompt, write the slice between them to
`aggregate_document_answers.txt` in the run directory. -/
def writeDebugAnswers (s : Store) (rid : String) (prompt : String) : Store :=
  match pyFindSub prompt startMarker, pyFindSub prompt endMarker with
  | some a, some b =>
    updateRun s rid fun rd =>
      { rd with debugAnswers := some (pySlice prompt a (b + pyLen endMarker)) }
  | _, _ => s

/-- `_execute_aggregate_phase` (aggregate_qa.py lines 246-288) for a
given `run_id`: build the consolidated prompt, dump the debug slice,
make the single backend call; every failure is wrapped in
`Aggregate処理エラー`. -/
def execute_aggregate_phase (s : Store) (rid : String) (question : String)
    (single_results : List SingleQAResult) (aggregate_template : String)
    (aggTemplates : List (String × String))
    (backend : String → Except String LLMResp) :
    Except String (Store × String × Option Nat) :=
  match create_aggregate_prompt aggTemplates question single_results
      aggregate_template with
  | Except.error e => Except.error ("Aggregate処理エラー: " ++ e)
  | Except.ok prompt =>
    let s1 := writeDebugAnswers s rid prompt
    match backend prompt with
    | Except.error e =>
      Except.error ("Aggregate処理エラー: " ++ wrapLLMError e)
    | Except.ok resp => Except.ok (s1, pyStrip resp.text, resp.total_tokens)

/-- `_calculate_statistics` (aggregate_qa.py lines 291-310): average
per-document time and total token usage over the results that carry the
corresponding metadata. -/
def calculate_statistics (single_results : List SingleQAResult) : Nat × Nat :=
  let timings := single_results.map fun r => r.metadata.timing.total_time
  let tokens := single_results.filterMap fun r => r.metadata.total_tokens
  (if timings.length = 0 then 0 else timings.sum / timings.length, tokens.sum)

/-- One line of the processed-document list in the aggregate report
(aggregate_qa.py lines 454-458). -/
def reportDocLine (i : Nat) (r : SingleQAResult) : String :=
  "  " ++ pad2sp i ++ ": " ++ subdirOrRoot r.document_path ++ "/" ++
    pyStem r.document_path ++ "\n"

/-- `metadata.get('results', {}).get('timing', {}).get('single_qa_total_time', 0)`
(aggregate_qa.py line 441). -/
def mdPrevSingleTime (md : List (String × JVal)) : Nat :=
  ((jGetObj md "results").bind fun r =>
    (jGetObj r "timing").bind fun t => jGetNat t "single_qa_total_time").getD 0

/-- The header of the aggregate report built by `run_aggregate_only`
(aggregate_qa.py lines 421-451), up to and including the
`処理対象文書:` line that the per-document lines follow. -/
def aggregateOnlyHeader (rid now question single_template
    aggregate_template : String) (parallel ndocs : Nat) (answer : String)
    (prevSingleTime aggTime totalSingleTokens aggTokens : Nat) : String :=
  "=== MAP-REDUCE質問応答結果 ===\n\n実行ID: " ++ rid ++
  "\n実行日時: " ++ now ++ "\n\n質問: " ++ question ++
  "\n\nパラメータ:\n- Single Template: " ++ single_template ++
  "\n- Aggregate Template: " ++ aggregate_template ++
  "  \n- 並列数: " ++ decRepr parallel ++
  "\n- 対象文書数: " ++ decRepr ndocs ++
  "\n\n=== 統合回答 ===\n\n" ++ answer ++
  "\n\n=== 実行統計 ===\n\n実行時間:\n- Single QA合計: " ++
  fmt2f prevSingleTime ++ "s (再利用)\n- Aggregate処理: " ++
  fmt2f aggTime ++ "s\n- 総実行時間: " ++ fmt2f aggTime ++
  "s\n\nトークン使用量:\n- Single QA合計: " ++
  commaFmt totalSingleTokens ++ " tokens (再利用)\n- Aggregate: " ++
  commaFmt aggTokens ++ " tokens\n- 総計: " ++
  commaFmt (totalSingleTokens + aggTokens) ++ " tokens\n\n処理対象文書:\n"

/-- The full aggregate report written by `run_aggregate_only`
(aggregate_qa.py lines 421-458): the header followed by one line per
processed document. -/
def aggregateOnlyReport (rid now question single_template
    aggregate_template : String) (parallel : Nat)
    (single_results : List SingleQAResult) (answer : String)
    (prevSingleTime aggTokens : Nat) : String :=
  aggregateOnlyHeader rid now question single_template aggregate_template
    parallel single_results.length answer prevSingleTime 0
    (calculate_statistics single_results).2 aggTokens ++
  String.join (single_results.enum.map fun p => reportDocLine p.1 p.2)

/-- `run_aggregate_only` (aggregate_qa.py lines 390-471): reduce-only
resume against an existing run.  Loads the question from the persisted
metadata, loads the persisted map results, runs the aggregate phase,
overwrites `aggregate_result.txt`, and merges the aggregate fields into
the metadata. -/
def run_aggregate_only (s : Store) (rid : String)
    (aggregate_template : String) (aggTemplates : List (String × String))
    (backend : String → Except String LLMResp) (now : String) :
    Except String (Store × String) :=
  match load_metadata s rid with
  | Except.error e => Except.error e
  | Except.ok md =>
    match jGetObj md "parameters" with
    | none => Except.error "KeyError: parameters"
    | some params =>
      match jGetStr params "question" with
      | none => Except.error "KeyError: question"
      | some question =>
        let single_results := load_single_qa_results s rid
        match execute_aggregate_phase s rid question single_results
            aggregate_template aggTemplates backend with
        | Except.error e => Except.error e
        | Except.ok (s1, answer, aggTokens) =>
          match jGetStr params "single_template" with
          | none => Except.error "KeyError: single_template"
          | some single_template =>
            match jGetNat params "parallel" with
            | none => Except.error "KeyError: parallel"
            | some parallel =>
              let report := aggregateOnlyReport rid now question
                  single_template aggregate_template parallel
                  single_results answer (mdPrevSingleTime md)
                  (aggTokens.getD 0)
              let s2 := save_aggregate_result s1 rid report
              match update_metadata s2 rid
                  [("aggregate_template", JVal.s aggregate_template),
                   ("aggregate_time", JVal.n 0),
                   ("aggregate_tokens", JVal.n (aggTokens.getD 0))] now with
              | Except.error e => Except.error e
              | Except.ok s3 => Except.ok (s3, rid)

/-! ## Concrete fixtures used by witnesses and counterexamples -/

/-- The non-`index` fields of a document record. -/
def nonIndexView (r : DocRecord) :
    String × String × String × String × Nat × String :=
  (r.path, r.relative_path, r.filename, r.subdir, r.size, r.hash)

/-- A two-file corpus in two category subdirectories. -/
def corpusFix : List FileEntry :=
  [⟨"a/x.txt", 10, "h1"⟩, ⟨"b/y.txt", 20, "h2"⟩]

/-- Document records as produced by scanning `corpusFix`. -/
def docFixA : DocRecord := ⟨0, "base/a/x.txt", "a/x.txt", "x", "a", 10, "h1"⟩

/-- Second scanned document record. -/
def docFixB : DocRecord := ⟨1, "base/b/y.txt", "b/y.txt", "y", "b", 20, "h2"⟩

/-- A filesystem oracle holding the two fixture documents. -/
def fsFix : String → Option String := fun p =>
  if p = "base/a/x.txt" then some "text of x"
  else if p = "base/b/y.txt" then some "text of y" else none

/-- A single-QA template provider with one template. -/
def tpsFix : List (String × String) :=
  [("focused", "Q: {question} D: {document} C: {category} N: {document_name}")]

/-- A backend stub that always answers with the same 8-character text. -/
def backendShort8 : String → Nat → Except String LLMResp :=
  fun _ _ => Except.ok ⟨"12345678", some 5⟩

/-- A backend stub that raises a connectivity-style error on every call. -/
def backendConnFail : String → Nat → Except String LLMResp :=
  fun _ _ => Except.error "connection refused"

/-- A backend stub that always returns a sufficiently long answer. -/
def backendLong : String → Nat → Except String LLMResp :=
  fun _ _ => Except.ok ⟨"a sufficiently long answer", some 7⟩

/-- The result that `mkWorker` over the fixture environment and the
always-long backend computes for a document (total function; documents
outside the fixture filesystem fall back to an arbitrary record and are
never used under that fallback). -/
def resFixFun (d : DocRecord) : SingleQAResult :=
  match single_document_qa fsFix tpsFix backendLong d.path "q?" "focused" with
  | Except.ok (r, _) => r
  | Except.error _ =>
    ⟨"", "", "", "", ⟨0, 0, ⟨0, 0, 0, 0⟩, none⟩⟩

/-- A stored map result for the fixture store. -/
def resFixA : SingleQAResult :=
  ⟨"base/a/x.txt", "q?", "focused", "answer A", ⟨2, 5, ⟨0, 0, 0, 0⟩, some 5⟩⟩

/-- Second stored map result for the fixture store. -/
def resFixB : SingleQAResult :=
  ⟨"base/b/y.txt", "q?", "focused", "answer B", ⟨2, 5, ⟨0, 0, 0, 0⟩, some 6⟩⟩

/-- Fixture metadata of a completed run. -/
def mdFix : List (String × JVal) :=
  [("run_id", JVal.s "r1"), ("status", JVal.s "completed"),
   ("parameters", JVal.obj [("question", JVal.s "q?"),
     ("single_template", JVal.s "focused"), ("parallel", JVal.n 3)])]

/-- A fixture store with one run holding two persisted map results. -/
def storeFix : Store :=
  ⟨[⟨"r1", some mdFix, [("000_a_x.json", resFixA), ("001_b_y.json", resFixB)],
    none, none⟩]⟩

/-- An aggregate template provider with two templates. -/
def aggFix : List (String × String) :=
  [("focused", "AGG {question} {document_answers}"),
   ("concise", "SHORT {question} {document_answers}")]

/-- An aggregate-phase backend stub. -/
def backendAggFix : String → Except String LLMResp :=
  fun _ => Except.ok ⟨"final answer", some 11⟩

/-! ## Helper lemmas: heap updates of the Document Indexer -/

theorem length_setIndexAt (h : List DocRecord) (r i : Nat) :
    (setIndexAt h r i).length = h.length :=
  List.length_set h r _

theorem getRec_setIndexAt_ne (h : List DocRecord) (r i j : Nat)
    (hne : j ≠ r) : getRec (setIndexAt h r i) j = getRec h j := by
  unfold getRec setIndexAt
  rw [List.getD_eq_getElem?_getD, List.getD_eq_getElem?_getD,
    List.getElem?_set_ne (fun hh => hne hh.symm)]

theorem getRec_setIndexAt_self (h : List DocRecord) (r i : Nat)
    (hr : r < h.length) :
    getRec (setIndexAt h r i) r = { getRec h r with index := i } := by
  unfold getRec setIndexAt
  rw [List.getD_eq_getElem?_getD, List.getElem?_set_self hr]
  rfl

theorem getRec_setIndexAt_nonIndex (h : List DocRecord) (r i j : Nat) :
    nonIndexView (getRec (setIndexAt h r i) j) = nonIndexView (getRec h j) := by
  by_cases hj : j = r
  · subst hj
    by_cases hr : j < h.length
    · rw [getRec_setIndexAt_self h j i hr]; rfl
    · unfold getRec setIndexAt
      rw [List.getD_eq_getElem?_getD, List.getD_eq_getElem?_getD,
        List.getElem?_set]
      simp only [if_pos rfl, if_neg hr]
      rw [List.getElem?_eq_none (Nat.le_of_not_lt hr)]
      simp
  · rw [getRec_setIndexAt_ne h r i j hj]

theorem foldl_setIndexAt_length :
    ∀ (ps : List (Nat × Nat)) (h : List DocRecord),
      (ps.foldl (fun h p => setIndexAt h p.2 p.1) h).length = h.length := by
  intro ps
  induction ps with
  | nil => intro h; rfl
  | cons p t ih =>
    intro h
    rw [List.foldl_cons, ih, length_setIndexAt]

theorem foldl_setIndexAt_nonIndex :
    ∀ (ps : List (Nat × Nat)) (h : List DocRecord) (j : Nat),
      nonIndexView (getRec (ps.foldl (fun h p => setIndexAt h p.2 p.1) h) j) =
        nonIndexView (getRec h j) := by
  intro ps
  induction ps with
  | nil => intro h j; rfl
  | cons p t ih =>
    intro h j
    rw [List.foldl_cons, ih, getRec_setIndexAt_nonIndex]

theorem foldl_setIndexAt_notMem :
    ∀ (ps : List (Nat × Nat)) (h : List DocRecord) (j : Nat),
      j ∉ ps.map Prod.snd →
      getRec (ps.foldl (fun h p => setIndexAt h p.2 p.1) h) j = getRec h j := by
  intro ps
  induction ps with
  | nil => intro h j _; rfl
  | cons p t ih =>
    intro h j hj
    rw [List.map_cons] at hj
    have hne : j ≠ p.2 := fun he => hj (List.mem_cons.mpr (Or.inl he))
    rw [List.foldl_cons, ih _ _ (fun hm => hj (List.mem_cons_of_mem _ hm)),
      getRec_setIndexAt_ne _ _ _ _ hne]

theorem foldl_setIndexAt_assign :
    ∀ (ps : List (Nat × Nat)) (h : List DocRecord),
      (ps.map Prod.snd).Nodup →
      ∀ p ∈ ps, p.2 < h.length →
        getRec (ps.foldl (fun h p => setIndexAt h p.2 p.1) h) p.2 =
          { getRec h p.2 with index := p.1 } := by
  intro ps
  induction ps with
  | nil => intro h _ p hp; exact absurd hp (List.not_mem_nil p)
  | cons q t ih =>
    intro h hnd p hp hlt
    rw [List.map_cons, List.nodup_cons] at hnd
    rw [List.foldl_cons]
    rcases List.mem_cons.mp hp with he | ht
    · subst he
      rw [foldl_setIndexAt_notMem t _ p.2 hnd.1,
        getRec_setIndexAt_self h p.2 p.1 hlt]
    · have hne : p.2 ≠ q.2 := by
        intro he
        exact hnd.1 (he ▸ List.mem_map_of_mem Prod.snd ht)
      rw [ih _ hnd.2 p ht (by rw [length_setIndexAt]; exact hlt),
        getRec_setIndexAt_ne _ _ _ _ hne]

/-! ## Claim C5 -/

/-- Claim C5 counterexample.  The claim states that no later operation
changes any field of the records in a list produced by
`scan_documents`.  It is false: `filter_by_subdir` reassigns
`doc['index'] = i` in place on the very dict objects of the original
list.  Concretely, scanning the two-file corpus yields a list whose
reference `1` holds a record with `index = 1`; after
`filter_by_subdir (...) ["b"]` the record reachable through that same
original reference has `index = 0`. -/
theorem filter_by_subdir_mutates_scanned_record :
    1 ∈ (scan_documents "base" corpusFix).2 ∧
    (getRec (scan_documents "base" corpusFix).1 1).index = 1 ∧
    (getRec (filter_by_subdir (scan_documents "base" corpusFix).1
        (scan_documents "base" corpusFix).2 ["b"]).1 1).index = 0 := by
  decide

/-- Claim C5 (amended): document records are never mutated after
creation **except** for the `index` field of the records kept by
`filter_by_subdir`, which is reassigned in place through the aliased
references; every other field of every record, and every record that the
filter drops, is unchanged. -/
theorem filter_by_subdir_touches_only_index (heap : List DocRecord)
    (refs : List Nat) (subdirs : List String) :
    (filter_by_subdir heap refs subdirs).1.length = heap.length ∧
    (∀ j, nonIndexView (getRec (filter_by_subdir heap refs subdirs).1 j) =
      nonIndexView (getRec heap j)) ∧
    (∀ j, j ∉ (filter_by_subdir heap refs subdirs).2 →
      getRec (filter_by_subdir heap refs subdirs).1 j = getRec heap j) := by
  refine ⟨foldl_setIndexAt_length _ _,
    fun j => foldl_setIndexAt_nonIndex _ _ _, fun j hj => ?_⟩
  apply foldl_setIndexAt_notMem
  rw [List.enum_map_snd]
  exact hj

/-- Claim C5 (amended) witness: at the concrete scanned corpus, the
amended statement holds while reference `1` of the original list is kept
by the filter and does change its `index`. -/
theorem filter_by_subdir_touches_only_index_witness :
    ((filter_by_subdir (scan_documents "base" corpusFix).1
        (scan_documents "base" corpusFix).2 ["b"]).1.length =
      (scan_documents "base" corpusFix).1.length ∧
    (∀ j, nonIndexView (getRec (filter_by_subdir
        (scan_documents "base" corpusFix).1
        (scan_documents "base" corpusFix).2 ["b"]).1 j) =
      nonIndexView (getRec (scan_documents "base" corpusFix).1 j)) ∧
    (∀ j, j ∉ (filter_by_subdir (scan_documents "base" corpusFix).1
        (scan_documents "base" corpusFix).2 ["b"]).2 →
      getRec (filter_by_subdir (scan_documents "base" corpusFix).1
          (scan_documents "base" corpusFix).2 ["b"]).1 j =
        getRec (scan_documents "base" corpusFix).1 j)) :=
  filter_by_subdir_touches_only_index (scan_documents "base" corpusFix).1
    (scan_documents "base" corpusFix).2 ["b"]

/-! ## Claim C6 -/

/-- Claim C6: for every document list and category set,
`filter_by_subdir` returns exactly the documents whose category label is
in the requested set, in input order (first conjunct, an equality with
`List.filter`), and reassigns their `index` fields to the contiguous
range `0..M-1` with all other fields unchanged (second conjunct). -/
theorem filter_by_subdir_reindexes (heap : List DocRecord)
    (refs : List Nat) (subdirs : List String) (hnd : refs.Nodup)
    (hv : ∀ r ∈ refs, r < heap.length) :
    (filter_by_subdir heap refs subdirs).2 =
      refs.filter (fun r => decide ((getRec heap r).subdir ∈ subdirs)) ∧
    ∀ i (hi : i < (filter_by_subdir heap refs subdirs).2.length),
      getRec (filter_by_subdir heap refs subdirs).1
          ((filter_by_subdir heap refs subdirs).2.get ⟨i, hi⟩) =
        { getRec heap ((filter_by_subdir heap refs subdirs).2.get ⟨i, hi⟩) with
            index := i } := by
  constructor
  · rfl
  · intro i hi
    have hi2 : i < (refs.filter
        (fun r => decide ((getRec heap r).subdir ∈ subdirs))).length := hi
    have hmem : ((refs.filter
        (fun r => decide ((getRec heap r).subdir ∈ subdirs))).get ⟨i, hi2⟩) ∈
        refs.filter (fun r => decide ((getRec heap r).subdir ∈ subdirs)) :=
      List.get_mem _ _ hi2
    have hnd2 : ((refs.filter
        (fun r => decide ((getRec heap r).subdir ∈ subdirs))).enum.map
        Prod.snd).Nodup := by
      rw [List.enum_map_snd]
      exact hnd.filter _
    have hpair : (i, (refs.filter
        (fun r => decide ((getRec heap r).subdir ∈ subdirs))).get ⟨i, hi2⟩) ∈
        (refs.filter (fun r => decide ((getRec heap r).subdir ∈ subdirs))).enum := by
      have hlen : i < (refs.filter
          (fun r => decide ((getRec heap r).subdir ∈ subdirs))).enum.length := by
        rw [List.enum_length]; exact hi2
      have := List.getElem_enum
        (refs.filter (fun r => decide ((getRec heap r).subdir ∈ subdirs))) i hlen
      rw [List.get_eq_getElem]
      exact this ▸ List.getElem_mem hlen
    have hlt : ((refs.filter
        (fun r => decide ((getRec heap r).subdir ∈ subdirs))).get ⟨i, hi2⟩) <
        heap.length :=
      hv _ (List.mem_of_mem_filter hmem)
    exact foldl_setIndexAt_assign _ heap hnd2 _ hpair hlt

/-- Claim C6 witness: concrete two-record heap, filtering on the second
category keeps exactly the matching record and renumbers it to `0`. -/
theorem filter_by_subdir_reindexes_witness :
    ([0, 1] : List Nat).Nodup ∧
    ((filter_by_subdir [docFixA, docFixB] [0, 1] ["b"]).2 =
      [0, 1].filter
        (fun r => decide ((getRec [docFixA, docFixB] r).subdir ∈ ["b"])) ∧
    ∀ i (hi : i < (filter_by_subdir [docFixA, docFixB] [0, 1] ["b"]).2.length),
      getRec (filter_by_subdir [docFixA, docFixB] [0, 1] ["b"]).1
          ((filter_by_subdir [docFixA, docFixB] [0, 1] ["b"]).2.get ⟨i, hi⟩) =
        { getRec [docFixA, docFixB]
            ((filter_by_subdir [docFixA, docFixB] [0, 1] ["b"]).2.get ⟨i, hi⟩)
            with index := i }) :=
  ⟨by decide, filter_by_subdir_reindexes [docFixA, docFixB] [0, 1] ["b"]
    (by decide) (by decide)⟩

/-! ## Helper lemmas: the Map Scheduler -/

theorem collectResults_ok (worker : DocRecord → Except String SingleQAResult)
    (res : DocRecord → SingleQAResult) :
    ∀ l : List DocRecord, (∀ d ∈ l, worker d = Except.ok (res d)) →
      collectResults worker l = Except.ok (l.map res) := by
  intro l
  induction l with
  | nil => intro _; rfl
  | cons d ds ih =>
    intro h
    rw [List.map_cons]
    show (match worker d with
      | Except.error e => Except.error e
      | Except.ok r =>
        match collectResults worker ds with
        | Except.error e => Except.error e
        | Except.ok rs => Except.ok (r :: rs)) =
      Except.ok (res d :: ds.map res)
    rw [h d (List.mem_cons_self d ds),
      ih (fun x hx => h x (List.mem_cons_of_mem d hx))]

theorem collectResults_error (worker : DocRecord → Except String SingleQAResult) :
    ∀ l : List DocRecord, (∃ d ∈ l, ∃ e, worker d = Except.error e) →
      ∃ e, collectResults worker l = Except.error e := by
  intro l
  induction l with
  | nil =>
    rintro ⟨d, hd, _⟩
    exact absurd hd (List.not_mem_nil d)
  | cons d ds ih =>
    rintro ⟨x, hx, e, he⟩
    rcases List.mem_cons.mp hx with h | h
    · subst h
      exact ⟨e, by
        show (match worker x with
          | Except.error e => Except.error e
          | Except.ok r =>
            match collectResults worker ds with
            | Except.error e => Except.error e
            | Except.ok rs => Except.ok (r :: rs)) = Except.error e
        rw [he]⟩
    · cases hw : worker d with
      | error e2 =>
        exact ⟨e2, by
          show (match worker d with
            | Except.error e => Except.error e
            | Except.ok r =>
              match collectResults worker ds with
              | Except.error e => Except.error e
              | Except.ok rs => Except.ok (r :: rs)) = Except.error e2
          rw [hw]⟩
      | ok r =>
        obtain ⟨e3, h3⟩ := ih ⟨x, h, e, he⟩
        exact ⟨e3, by
          show (match worker d with
            | Except.error e => Except.error e
            | Except.ok r =>
              match collectResults worker ds with
              | Except.error e => Except.error e
              | Except.ok rs => Except.ok (r :: rs)) = Except.error e3
          rw [hw, h3]⟩

theorem lookup_eq_of_mem_of_nodupKeys :
    ∀ (l : List (String × Nat)) (k : String) (v : Nat),
      (l.map Prod.fst).Nodup → (k, v) ∈ l → l.lookup k = some v := by
  intro l
  induction l with
  | nil => intro k v _ hm; exact absurd hm (List.not_mem_nil _)
  | cons p t ih =>
    intro k v hnd hm
    rw [List.map_cons, List.nodup_cons] at hnd
    rcases List.mem_cons.mp hm with he | ht
    · rw [← he]
      simp [List.lookup]
    · have hne : (k == p.1) = false :=
        beq_eq_false_iff_ne.mpr
          (fun hkp => hnd.1 (hkp ▸ List.mem_map_of_mem Prod.fst ht))
      simp only [List.lookup, hne]
      exact ih k v hnd.2 ht

theorem sortKey_of_mem (documents : List DocRecord) (d : DocRecord)
    (hpaths : (documents.map (·.path)).Nodup) (hd : d ∈ documents)
    (r : SingleQAResult) (hr : r.document_path = d.path) :
    sortKey documents r = d.index := by
  unfold sortKey pyDictGetNat doc_path_to_index
  rw [hr]
  have hmem : (d.path, d.index) ∈
      (documents.map fun x => (x.path, x.index)).reverse := by
    rw [List.mem_reverse]
    exact List.mem_map_of_mem _ hd
  have hnd : ((documents.map fun x => (x.path, x.index)).reverse.map
      Prod.fst).Nodup := by
    rw [List.map_reverse, List.nodup_reverse, List.map_map]
    exact hpaths
  rw [lookup_eq_of_mem_of_nodupKeys _ _ _ hnd hmem]
  rfl

theorem eq_of_perm_of_pairwise_lt_key (key : SingleQAResult → Nat)
    {l₁ l₂ : List SingleQAResult} (hp : l₁.Perm l₂)
    (h1 : l₁.Pairwise (fun a b => key a < key b))
    (h2 : l₂.Pairwise (fun a b => key a < key b)) : l₁ = l₂ := by
  haveI : IsAntisymm SingleQAResult (fun a b => key a < key b) :=
    ⟨fun _ _ hab hba => absurd hba (Nat.lt_asymm hab)⟩
  exact List.eq_of_perm_of_sorted hp h1 h2

/-! ## Claim C2 -/

/-- Claim C2: when every per-document worker call returns normally,
`run_single_qa_batch` returns exactly one result per document, re-sorted
into the documents' index order, for every completion order of the
parallel workers.  The hypotheses record how the scheduler is invoked:
the completion order is a permutation of the dispatched documents, each
worker returns the result of its own document (whose `document_path` is
the document's path, as `single_document_qa` guarantees), paths are
distinct on disk, and indices are the contiguous scan order. -/
theorem run_single_qa_batch_ordered
    (worker : DocRecord → Except String SingleQAResult)
    (documents completionOrder : List DocRecord)
    (res : DocRecord → SingleQAResult)
    (hperm : completionOrder.Perm documents)
    (hok : ∀ d ∈ documents, worker d = Except.ok (res d))
    (hpath : ∀ d ∈ documents, (res d).document_path = d.path)
    (hpaths : (documents.map (·.path)).Nodup)
    (hidx : ∀ i (hi : i < documents.length),
      (documents.get ⟨i, hi⟩).index = i) :
    run_single_qa_batch worker documents completionOrder =
      Except.ok (documents.map res) ∧
    (documents.map res).length = documents.length := by
  refine ⟨?_, List.length_map _ _⟩
  have hcol : collectResults worker completionOrder =
      Except.ok (completionOrder.map res) :=
    collectResults_ok worker res completionOrder
      (fun d hd => hok d (hperm.mem_iff.mp hd))
  show (match collectResults worker completionOrder with
    | Except.error e => Except.error e
    | Except.ok results => Except.ok (sortResults documents results)) =
    Except.ok (documents.map res)
  rw [hcol]
  have hkeys : ∀ d ∈ documents, sortKey documents (res d) = d.index :=
    fun d hd => sortKey_of_mem documents d hpaths hd (res d) (hpath d hd)
  have hidx2 : ∀ i (hi : i < documents.length), documents[i].index = i := by
    intro i hi
    rw [← List.get_eq_getElem documents ⟨i, hi⟩]
    exact hidx i hi
  have hdocidx : documents.Pairwise (fun a b => a.index < b.index) := by
    rw [List.pairwise_iff_get]
    intro i j hij
    rw [List.get_eq_getElem, List.get_eq_getElem, hidx2 i i.isLt, hidx2 j j.isLt]
    exact hij
  have htarget : (documents.map res).Pairwise
      (fun a b => sortKey documents a < sortKey documents b) := by
    rw [List.pairwise_map]
    refine hdocidx.imp_of_mem ?_
    intro a b ha hb hab
    rw [hkeys a ha, hkeys b hb]
    exact hab
  have hpermS : (List.insertionSort
      (fun a b => sortKey documents a ≤ sortKey documents b)
      (completionOrder.map res)).Perm (documents.map res) :=
    (List.perm_insertionSort _ _).trans (hperm.map res)
  haveI : IsTotal SingleQAResult
      (fun a b => sortKey documents a ≤ sortKey documents b) :=
    ⟨fun a b => Nat.le_total _ _⟩
  haveI : IsTrans SingleQAResult
      (fun a b => sortKey documents a ≤ sortKey documents b) :=
    ⟨fun _ _ _ => Nat.le_trans⟩
  have hsorted : (List.insertionSort
      (fun a b => sortKey documents a ≤ sortKey documents b)
      (completionOrder.map res)).Pairwise
      (fun a b => sortKey documents a ≤ sortKey documents b) :=
    List.sorted_insertionSort _ _
  have hne : (List.insertionSort
      (fun a b => sortKey documents a ≤ sortKey documents b)
      (completionOrder.map res)).Pairwise
      (fun a b => sortKey documents a ≠ sortKey documents b) := by
    refine (List.Perm.pairwise_iff (fun hxy => hxy.symm) hpermS).mpr ?_
    exact htarget.imp (fun h => Nat.ne_of_lt h)
  have hstrict : (List.insertionSort
      (fun a b => sortKey documents a ≤ sortKey documents b)
      (completionOrder.map res)).Pairwise
      (fun a b => sortKey documents a < sortKey documents b) :=
    (hsorted.and hne).imp (fun h => Nat.lt_of_le_of_ne h.1 h.2)
  have hfinal : List.insertionSort
      (fun a b => sortKey documents a ≤ sortKey documents b)
      (completionOrder.map res) = documents.map res :=
    eq_of_perm_of_pairwise_lt_key (sortKey documents) hpermS hstrict htarget
  show Except.ok (List.insertionSort
    (fun a b => sortKey documents a ≤ sortKey documents b)
    (completionOrder.map res)) = Except.ok (documents.map res)
  rw [hfinal]

/-- Claim C2 witness: two documents whose workers complete in reverse
order still yield the results in document index order. -/
theorem run_single_qa_batch_ordered_witness :
    ([docFixB, docFixA].Perm [docFixA, docFixB]) ∧
    (run_single_qa_batch (mkWorker fsFix tpsFix backendLong "q?" "focused")
      [docFixA, docFixB] [docFixB, docFixA] =
      Except.ok ([docFixA, docFixB].map resFixFun) ∧
    ([docFixA, docFixB].map resFixFun).length = [docFixA, docFixB].length) :=
  ⟨by decide,
   run_single_qa_batch_ordered
     (mkWorker fsFix tpsFix backendLong "q?" "focused")
     [docFixA, docFixB] [docFixB, docFixA] resFixFun
     (by decide) (by decide) (by decide) (by decide)
     (by
       intro i hi
       have hi2 : i < 2 := hi
       interval_cases i
       · rfl
       · rfl)⟩

/-! ## Claim C1 -/

/-- Claim C1 counterexample.  The claim states that `run_single_qa_batch`
catches a worker exception and substitutes a synthetic `error_flag`
result, so the map phase always returns one result per document.  It is
false: `run_single_qa_batch` (aggregate_qa.py lines 131-166) contains no
try/except, so the exception re-raised by `future.result()` propagates
and the batch aborts.  Concretely, with the worker built over a backend
that raises a connectivity error and a one-document list, the batch
returns the propagated connectivity exception and no result list. -/
theorem run_single_qa_batch_aborts_on_worker_exception :
    run_single_qa_batch (mkWorker fsFix tpsFix backendConnFail "q?" "focused")
      [docFixA] [docFixA] = Except.error connectionErrorMsg ∧
    (run_single_qa_batch (mkWorker fsFix tpsFix backendConnFail "q?" "focused")
      [docFixA] [docFixA]).isOk = false := by
  decide

/-- Claim C1 (amended): a worker-level exception is **not** caught by
`run_single_qa_batch`; whenever any dispatched worker raises, the whole
batch re-raises instead of returning a (synthetic or otherwise) result
list. -/
theorem run_single_qa_batch_propagates_exception
    (worker : DocRecord → Except String SingleQAResult)
    (documents completionOrder : List DocRecord)
    (h : ∃ d ∈ completionOrder, ∃ e, worker d = Except.error e) :
    ∃ e, run_single_qa_batch worker documents completionOrder =
      Except.error e := by
  obtain ⟨e, he⟩ := collectResults_error worker completionOrder h
  refine ⟨e, ?_⟩
  show (match collectResults worker completionOrder with
    | Except.error e => Except.error e
    | Except.ok results => Except.ok (sortResults documents results)) =
    Except.error e
  rw [he]

/-- Claim C1 (amended) witness: the connectivity-failing worker on one
document makes the batch abort with an error. -/
theorem run_single_qa_batch_propagates_exception_witness :
    (∃ d ∈ [docFixA], ∃ e,
      mkWorker fsFix tpsFix backendConnFail "q?" "focused" d =
        Except.error e) ∧
    ∃ e, run_single_qa_batch
      (mkWorker fsFix tpsFix backendConnFail "q?" "focused")
      [docFixA] [docFixA] = Except.error e :=
  ⟨⟨docFixA, List.mem_cons_self _ _, connectionErrorMsg, by decide⟩,
   run_single_qa_batch_propagates_exception
     (mkWorker fsFix tpsFix backendConnFail "q?" "focused") [docFixA] [docFixA]
     ⟨docFixA, List.mem_cons_self _ _, connectionErrorMsg, by decide⟩⟩

/-! ## Helper lemmas: the retry loop -/

theorem qaLoop_all_short (backend : String → Nat → Except String LLMResp)
    (prompt : String)
    (hshort : ∀ i, ∃ resp, backend prompt i = Except.ok resp ∧
      pyLen (pyStrip (pyStrip resp.text)) < 10) :
    ∀ fuel calls a t, 1 ≤ fuel →
      ∃ resp, backend prompt (calls + fuel - 1) = Except.ok resp ∧
        qaLoop backend prompt fuel calls a t =
          Except.ok (pyStrip resp.text, resp.total_tokens, calls + fuel) := by
  intro fuel
  induction fuel with
  | zero => intro calls a t h; exact absurd h (by omega)
  | succ f ih =>
    intro calls a t _
    obtain ⟨resp, hb, hlen⟩ := hshort calls
    have hcond : ¬(pyStrip resp.text ≠ "" ∧
        10 ≤ pyLen (pyStrip (pyStrip resp.text))) :=
      fun hc => absurd hc.2 (Nat.not_le.mpr hlen)
    have hstep : qaLoop backend prompt (f + 1) calls a t =
        qaLoop backend prompt f (calls + 1) (pyStrip resp.text)
          resp.total_tokens := by
      show (match query_llm backend prompt calls with
        | Except.error e => Except.error e
        | Except.ok (answer, tok) =>
          if answer ≠ "" ∧ 10 ≤ pyLen (pyStrip answer) then
            Except.ok (answer, tok, calls + 1)
          else qaLoop backend prompt f (calls + 1) answer tok) = _
      unfold query_llm
      rw [hb]
      exact if_neg hcond
    cases f with
    | zero =>
      refine ⟨resp, ?_, ?_⟩
      · have : calls + (0 + 1) - 1 = calls := by omega
        rw [this]
        exact hb
      · rw [hstep]
        show Except.ok (pyStrip resp.text, resp.total_tokens, calls + 1) = _
        rfl
    | succ f2 =>
      obtain ⟨resp2, hb2, hloop2⟩ :=
        ih (calls + 1) (pyStrip resp.text) resp.total_tokens (by omega)
      refine ⟨resp2, ?_, ?_⟩
      · have : calls + 1 + (f2 + 1) - 1 = calls + (f2 + 1 + 1) - 1 := by omega
        rw [← this]
        exact hb2
      · rw [hstep, hloop2]
        have : calls + 1 + (f2 + 1) = calls + (f2 + 1 + 1) := by omega
        rw [this]

/-! ## Claim C3 -/

/-- Claim C3 counterexample.  The claim states that after exhausting the
3 attempts against a backend that always answers with fewer than 10
characters, the returned result carries an error indicator showing it
was degraded.  The first two parts hold (3 calls, the last insufficient
answer is returned, no exception), but the result dict built by
`single_document_qa` (single_doc_qa.py lines 373-389) has exactly the
keys `document_path, question, template, answer, metadata` — there is no
`error_flag` or any other error field; exhaustion is only reported on
stderr.  Shown here on a backend whose every answer is the 8-character
`12345678`. -/
theorem single_document_qa_no_error_indicator :
    single_document_qa fsFix tpsFix backendShort8 "base/a/x.txt" "q?"
        "focused" =
      Except.ok (⟨"base/a/x.txt", "q?", "focused", "12345678",
        ⟨9, 28, ⟨0, 0, 0, 0⟩, some 5⟩⟩, 3) ∧
    "error_flag" ∉ resultDictKeys ⟨"base/a/x.txt", "q?", "focused",
      "12345678", ⟨9, 28, ⟨0, 0, 0, 0⟩, some 5⟩⟩ ∧
    "error" ∉ resultDictKeys ⟨"base/a/x.txt", "q?", "focused",
      "12345678", ⟨9, 28, ⟨0, 0, 0, 0⟩, some 5⟩⟩ := by
  decide

/-- Claim C3 (amended): if the backend always returns an answer shorter
than 10 characters after stripping, `single_document_qa` calls the
backend exactly 3 times, then returns (rather than raises) a result
whose answer is the last insufficient response; but the result carries
**no** error indicator — its dict has exactly the same five keys as a
successful result, so degradation is observable only through the short
answer itself. -/
theorem single_document_qa_exhausts_retries
    (fs : String → Option String) (templates : List (String × String))
    (backend : String → Nat → Except String LLMResp)
    (doc_path question template_name document prompt : String)
    (hdoc : read_document fs doc_path = Except.ok document)
    (hpr : create_prompt templates document question doc_path template_name =
      Except.ok prompt)
    (hshort : ∀ i, ∃ resp, backend prompt i = Except.ok resp ∧
      pyLen (pyStrip (pyStrip resp.text)) < 10) :
    ∃ resp2 r, backend prompt 2 = Except.ok resp2 ∧
      single_document_qa fs templates backend doc_path question
        template_name = Except.ok (r, 3) ∧
      r.answer = pyStrip resp2.text ∧
      resultDictKeys r =
        ["document_path", "question", "template", "answer", "metadata"] := by
  obtain ⟨resp2, hb2, hloop⟩ :=
    qaLoop_all_short backend prompt hshort 3 0 "" none (by omega)
  have hb2' : backend prompt 2 = Except.ok resp2 := hb2
  have hmain : single_document_qa fs templates backend doc_path question
      template_name = Except.ok
        ((⟨doc_path, question, template_name, pyStrip resp2.text,
          ⟨pyLen document, pyLen prompt, ⟨0, 0, 0, 0⟩,
            resp2.total_tokens⟩⟩ : SingleQAResult), 3) := by
    show (match read_document fs doc_path with
    | Except.error e => Except.error e
    | Except.ok document =>
      match create_prompt templates document question doc_path template_name with
      | Except.error e => Except.error e
      | Except.ok prompt =>
        match qaLoop backend prompt max_retries 0 "" none with
        | Except.error e => Except.error e
        | Except.ok (answer, tok, calls) =>
          Except.ok ((⟨doc_path, question, template_name, answer,
            ⟨pyLen document, pyLen prompt, ⟨0, 0, 0, 0⟩, tok⟩⟩ :
              SingleQAResult), calls)) = _
    rw [hdoc]
    show (match create_prompt templates document question doc_path
        template_name with
      | Except.error e => Except.error e
      | Except.ok prompt =>
        match qaLoop backend prompt max_retries 0 "" none with
        | Except.error e => Except.error e
        | Except.ok (answer, tok, calls) =>
          Except.ok ((⟨doc_path, question, template_name, answer,
            ⟨pyLen document, pyLen prompt, ⟨0, 0, 0, 0⟩, tok⟩⟩ :
              SingleQAResult), calls)) = _
    rw [hpr]
    show (match qaLoop backend prompt max_retries 0 "" none with
      | Except.error e => Except.error e
      | Except.ok (answer, tok, calls) =>
        Except.ok ((⟨doc_path, question, template_name, answer,
          ⟨pyLen document, pyLen prompt, ⟨0, 0, 0, 0⟩, tok⟩⟩ :
            SingleQAResult), calls)) = _
    have hloop' : qaLoop backend prompt max_retries 0 "" none =
        Except.ok (pyStrip resp2.text, resp2.total_tokens, 3) := hloop
    rw [hloop']
  exact ⟨resp2, _, hb2', hmain, rfl, rfl⟩

/-- Claim C3 (amended) witness: the 8-character backend on the fixture
document. -/
theorem single_document_qa_exhausts_retries_witness :
    (read_document fsFix "base/a/x.txt" = Except.ok "text of x") ∧
    (create_prompt tpsFix "text of x" "q?" "base/a/x.txt" "focused" =
      Except.ok "Q: q? D: text of x C: a N: x") ∧
    (∀ i, ∃ resp, backendShort8 "Q: q? D: text of x C: a N: x" i =
      Except.ok resp ∧ pyLen (pyStrip (pyStrip resp.text)) < 10) ∧
    ∃ resp2 r, backendShort8 "Q: q? D: text of x C: a N: x" 2 =
        Except.ok resp2 ∧
      single_document_qa fsFix tpsFix backendShort8 "base/a/x.txt" "q?"
        "focused" = Except.ok (r, 3) ∧
      r.answer = pyStrip resp2.text ∧
      resultDictKeys r =
        ["document_path", "question", "template", "answer", "metadata"] :=
  ⟨by decide, by decide, fun i => ⟨⟨"12345678", some 5⟩, rfl, by decide⟩,
   single_document_qa_exhausts_retries fsFix tpsFix backendShort8
     "base/a/x.txt" "q?" "focused" "text of x" "Q: q? D: text of x C: a N: x"
     (by decide) (by decide)
     (fun i => ⟨⟨"12345678", some 5⟩, rfl, by decide⟩)⟩

/-! ## Helper lemmas: Python dict operations -/

theorem lookup_none_of_not_mem_keys :
    ∀ (l : List (String × JVal)) (k : String), k ∉ l.map Prod.fst →
      l.lookup k = none := by
  intro l
  induction l with
  | nil => intro k _; rfl
  | cons p t ih =>
    intro k hk
    rw [List.map_cons] at hk
    have hne : (k == p.1) = false :=
      beq_eq_false_iff_ne.mpr (fun he => hk (List.mem_cons.mpr (Or.inl he)))
    simp only [List.lookup, hne]
    exact ih k (fun hm => hk (List.mem_cons_of_mem _ hm))

theorem lookup_map_replace_self :
    ∀ (d : List (String × JVal)) (k : String) (v : JVal),
      (d.lookup k).isSome = true →
      ((d.map fun p => if p.1 = k then (k, v) else p).lookup k) = some v := by
  intro d
  induction d with
  | nil => intro k v h; exact absurd h (by simp [List.lookup])
  | cons p t ih =>
    intro k v h
    by_cases hc : p.1 = k
    · rw [List.map_cons, if_pos hc]
      simp [List.lookup]
    · rw [List.map_cons, if_neg hc]
      have hne : (k == p.1) = false :=
        beq_eq_false_iff_ne.mpr (fun he => hc he.symm)
      simp only [List.lookup, hne] at h ⊢
      exact ih k v h

theorem lookup_map_replace_ne :
    ∀ (d : List (String × JVal)) (k k2 : String) (v : JVal), k2 ≠ k →
      ((d.map fun p => if p.1 = k then (k, v) else p).lookup k2) =
        d.lookup k2 := by
  intro d
  induction d with
  | nil => intro k k2 v _; rfl
  | cons p t ih =>
    intro k k2 v hne
    by_cases hc : p.1 = k
    · rw [List.map_cons, if_pos hc]
      have h1 : (k2 == k) = false := beq_eq_false_iff_ne.mpr hne
      have h2 : (k2 == p.1) = false :=
        beq_eq_false_iff_ne.mpr (fun he => hne (hc ▸ he))
      simp only [List.lookup, h1, h2]
      exact ih k k2 v hne
    · rw [List.map_cons, if_neg hc]
      by_cases hc2 : k2 = p.1
      · have h1 : (k2 == p.1) = true := beq_iff_eq.mpr hc2
        simp only [List.lookup, h1]
      · have h1 : (k2 == p.1) = false := beq_eq_false_iff_ne.mpr hc2
        simp only [List.lookup, h1]
        exact ih k k2 v hne

theorem lookup_append_right :
    ∀ (d e : List (String × JVal)) (k : String), d.lookup k = none →
      ((d ++ e).lookup k) = e.lookup k := by
  intro d
  induction d with
  | nil => intro e k _; rfl
  | cons p t ih =>
    intro e k h
    by_cases hc : k = p.1
    · exfalso
      have : (k == p.1) = true := beq_iff_eq.mpr hc
      simp [List.lookup, this] at h
    · have h1 : (k == p.1) = false := beq_eq_false_iff_ne.mpr hc
      simp only [List.lookup, h1] at h
      rw [List.cons_append]
      simp only [List.lookup, h1]
      exact ih e k h

theorem dictSet_lookup_self (d : List (String × JVal)) (k : String)
    (v : JVal) : (dictSet d k v).lookup k = some v := by
  unfold dictSet
  by_cases h : (d.lookup k).isSome
  · rw [if_pos h]
    exact lookup_map_replace_self d k v h
  · rw [if_neg h]
    have hn : d.lookup k = none := by
      cases hd : d.lookup k
      · rfl
      · rw [hd] at h; exact absurd rfl h
    rw [lookup_append_right d _ k hn]
    simp [List.lookup]

theorem lookup_append_single_ne :
    ∀ (d : List (String × JVal)) (k k2 : String) (v : JVal), k2 ≠ k →
      ((d ++ [(k, v)]).lookup k2) = d.lookup k2 := by
  intro d
  induction d with
  | nil =>
    intro k k2 v hne
    have h1 : (k2 == k) = false := beq_eq_false_iff_ne.mpr hne
    simp [List.lookup, h1]
  | cons p t ih =>
    intro k k2 v hne
    rw [List.cons_append]
    by_cases hc : k2 = p.1
    · have h1 : (k2 == p.1) = true := beq_iff_eq.mpr hc
      simp only [List.lookup, h1]
    · have h1 : (k2 == p.1) = false := beq_eq_false_iff_ne.mpr hc
      simp only [List.lookup, h1]
      exact ih k k2 v hne

theorem dictSet_lookup_ne (d : List (String × JVal)) (k k2 : String)
    (v : JVal) (hne : k2 ≠ k) : (dictSet d k v).lookup k2 = d.lookup k2 := by
  unfold dictSet
  by_cases h : (d.lookup k).isSome
  · rw [if_pos h]
    exact lookup_map_replace_ne d k k2 v hne
  · rw [if_neg h]
    exact lookup_append_single_ne d k k2 v hne


theorem dictUpdate_lookup :
    ∀ (u d : List (String × JVal)), (u.map Prod.fst).Nodup → ∀ k,
      (dictUpdate d u).lookup k = (u.lookup k).or (d.lookup k) := by
  intro u
  induction u with
  | nil =>
    intro d _ k
    show d.lookup k = (Option.or none (d.lookup k))
    rw [Option.none_or]
  | cons p t ih =>
    intro d hnu k
    rw [List.map_cons, List.nodup_cons] at hnu
    have hstep : dictUpdate d (p :: t) = dictUpdate (dictSet d p.1 p.2) t := rfl
    rw [hstep, ih _ hnu.2 k]
    by_cases hc : k = p.1
    · have h1 : (k == p.1) = true := beq_iff_eq.mpr hc
      have h2 : t.lookup k = none :=
        lookup_none_of_not_mem_keys t k (fun hm => hnu.1 (hc ▸ hm))
      rw [h2, Option.none_or, hc, dictSet_lookup_self]
      simp only [List.lookup, beq_self_eq_true]
      rfl
    · have h1 : (k == p.1) = false := beq_eq_false_iff_ne.mpr hc
      rw [dictSet_lookup_ne d p.1 k p.2 hc]
      simp only [List.lookup, h1]

/-! ## Helper lemmas: the Run Store -/

theorem find?_update_self (rid : String) (f : RunDir → RunDir)
    (hf : ∀ rd, (f rd).name = rd.name) :
    ∀ runs : List RunDir,
      ((runs.map fun rd => if rd.name == rid then f rd else rd).find?
        (fun rd => rd.name == rid)) =
      (runs.find? (fun rd => rd.name == rid)).map f := by
  intro runs
  induction runs with
  | nil => rfl
  | cons rd t ih =>
    rw [List.map_cons]
    by_cases hc : rd.name = rid
    · have hc2 : (rd.name == rid) = true := beq_iff_eq.mpr hc
      have hc3 : ((f rd).name == rid) = true := by rw [hf rd]; exact hc2
      simp [List.find?_cons, hc2, hc3]
    · have hc2 : (rd.name == rid) = false := beq_eq_false_iff_ne.mpr hc
      have hhead : (if rd.name == rid then f rd else rd) = rd := by
        rw [hc2]
        simp
      rw [hhead]
      simp only [List.find?_cons, hc2]
      exact ih

theorem find?_update_ne (rid rid2 : String) (hne : rid2 ≠ rid)
    (f : RunDir → RunDir) (hf : ∀ rd, (f rd).name = rd.name) :
    ∀ runs : List RunDir,
      ((runs.map fun rd => if rd.name == rid then f rd else rd).find?
        (fun rd => rd.name == rid2)) =
      runs.find? (fun rd => rd.name == rid2) := by
  intro runs
  induction runs with
  | nil => rfl
  | cons rd t ih =>
    rw [List.map_cons]
    by_cases hc : rd.name = rid
    · have hc2 : (rd.name == rid) = true := beq_iff_eq.mpr hc
      have hhead : (if rd.name == rid then f rd else rd) = f rd := by
        rw [hc2]
        simp
      have hmiss2 : (rd.name == rid2) = false :=
        beq_eq_false_iff_ne.mpr (fun he => hne (he.symm.trans hc))
      have hmiss : ((f rd).name == rid2) = false := by
        rw [hf rd]; exact hmiss2
      rw [hhead]
      simp only [List.find?_cons, hmiss, hmiss2]
      exact ih
    · have hc2 : (rd.name == rid) = false := beq_eq_false_iff_ne.mpr hc
      have hhead : (if rd.name == rid then f rd else rd) = rd := by
        rw [hc2]
        simp
      rw [hhead]
      by_cases hm : rd.name = rid2
      · have hm2 : (rd.name == rid2) = true := beq_iff_eq.mpr hm
        simp [List.find?_cons, hm2]
      · have hm2 : (rd.name == rid2) = false := beq_eq_false_iff_ne.mpr hm
        simp only [List.find?_cons, hm2]
        exact ih

theorem getRun_updateRun_self (s : Store) (rid : String)
    (f : RunDir → RunDir) (hf : ∀ rd, (f rd).name = rd.name) :
    getRun (updateRun s rid f) rid = (getRun s rid).map f :=
  find?_update_self rid f hf s.runs

theorem getRun_updateRun_ne (s : Store) (rid rid2 : String)
    (hne : rid2 ≠ rid) (f : RunDir → RunDir)
    (hf : ∀ rd, (f rd).name = rd.name) :
    getRun (updateRun s rid f) rid2 = getRun s rid2 :=
  find?_update_ne rid rid2 hne f hf s.runs

theorem dirNames_updateRun (s : Store) (rid : String) (f : RunDir → RunDir)
    (hf : ∀ rd, (f rd).name = rd.name) :
    dirNames (updateRun s rid f) = dirNames s := by
  show (s.runs.map fun rd => if rd.name == rid then f rd else rd).map
    (·.name) = s.runs.map (·.name)
  rw [List.map_map]
  apply List.map_congr_left
  intro rd _
  show (if rd.name == rid then f rd else rd).name = rd.name
  by_cases hc : rd.name = rid
  · rw [beq_iff_eq.mpr hc]
    simp
    exact hf rd
  · rw [beq_eq_false_iff_ne.mpr hc]
    simp

theorem mem_dirNames_ensureRun (s : Store) (rid : String) :
    rid ∈ dirNames (ensureRun s rid) := by
  unfold ensureRun
  by_cases h : (getRun s rid).isSome
  · rw [if_pos h]
    obtain ⟨rd, hmem, hname⟩ := List.find?_isSome.mp h
    have hrd : rd.name = rid := eq_of_beq hname
    exact hrd ▸ List.mem_map_of_mem (·.name) hmem
  · rw [if_neg h]
    show rid ∈ (s.runs ++ [emptyRun rid]).map (·.name)
    rw [List.map_append]
    exact List.mem_append.mpr (Or.inr (List.mem_cons_self _ _))

theorem ensureRun_of_isSome (s : Store) (rid : String)
    (h : (getRun s rid).isSome) : ensureRun s rid = s := by
  unfold ensureRun
  rw [if_pos h]

theorem getRun_save_metadata_self (s : Store) (rid : String)
    (md : List (String × JVal)) :
    getRun (save_metadata s rid md) rid =
      (getRun s rid).map (fun rd => { rd with metadata := some md }) :=
  getRun_updateRun_self s rid _ (fun _ => rfl)

theorem getRun_save_metadata_ne (s : Store) (rid rid2 : String)
    (hne : rid2 ≠ rid) (md : List (String × JVal)) :
    getRun (save_metadata s rid md) rid2 = getRun s rid2 :=
  getRun_updateRun_ne s rid rid2 hne _ (fun _ => rfl)

theorem getRun_save_aggregate_self (s : Store) (rid : String) (r : String) :
    getRun (save_aggregate_result s rid r) rid =
      (getRun s rid).map (fun rd => { rd with aggregate := some r }) :=
  getRun_updateRun_self s rid _ (fun _ => rfl)

theorem getRun_save_aggregate_ne (s : Store) (rid rid2 : String)
    (hne : rid2 ≠ rid) (r : String) :
    getRun (save_aggregate_result s rid r) rid2 = getRun s rid2 :=
  getRun_updateRun_ne s rid rid2 hne _ (fun _ => rfl)

/-! ## Claim C8 -/

/-- Claim C8: for every existing run and partial update dict,
`update_metadata` merges: every top-level key not in the update keeps
its old value, every key in the update (other than the refreshed
`updated_at`) takes the update's value, and `updated_at` is set to the
current timestamp.  `Option.or` packages the two merge cases. -/
theorem update_metadata_merges (s : Store) (rid : String)
    (updates : List (String × JVal)) (now : String)
    (md : List (String × JVal))
    (hmd : load_metadata s rid = Except.ok md)
    (hnu : (updates.map Prod.fst).Nodup) :
    ∃ s2 md2, update_metadata s rid updates now = Except.ok s2 ∧
      load_metadata s2 rid = Except.ok md2 ∧
      md2.lookup "updated_at" = some (JVal.s now) ∧
      ∀ k, k ≠ "updated_at" →
        md2.lookup k = (updates.lookup k).or (md.lookup k) := by
  refine ⟨save_metadata s rid
    (dictSet (dictUpdate md updates) "updated_at" (JVal.s now)),
    dictSet (dictUpdate md updates) "updated_at" (JVal.s now), ?_, ?_, ?_, ?_⟩
  · show (match load_metadata s rid with
      | Except.error e => Except.error e
      | Except.ok md => Except.ok (save_metadata s rid
          (dictSet (dictUpdate md updates) "updated_at" (JVal.s now)))) = _
    rw [hmd]
  · have hget := getRun_save_metadata_self s rid
      (dictSet (dictUpdate md updates) "updated_at" (JVal.s now))
    unfold load_metadata at hmd ⊢
    cases hrun : getRun s rid with
    | none =>
      rw [hrun] at hmd
      exact absurd hmd (by simp)
    | some rd =>
      rw [hget, hrun]
      rfl
  · exact dictSet_lookup_self _ _ _
  · intro k hk
    rw [dictSet_lookup_ne _ _ _ _ hk, dictUpdate_lookup updates md hnu k]

/-- Claim C8 witness: updating the fixture run's `status` preserves the
other fields and refreshes `updated_at`. -/
theorem update_metadata_merges_witness :
    (load_metadata storeFix "r1" = Except.ok mdFix) ∧
    ((([("status", JVal.s "running")] : List (String × JVal)).map
      Prod.fst).Nodup) ∧
    ∃ s2 md2, update_metadata storeFix "r1" [("status", JVal.s "running")]
        "now2" = Except.ok s2 ∧
      load_metadata s2 "r1" = Except.ok md2 ∧
      md2.lookup "updated_at" = some (JVal.s "now2") ∧
      ∀ k, k ≠ "updated_at" →
        md2.lookup k = (([("status", JVal.s "running")] :
          List (String × JVal)).lookup k).or (mdFix.lookup k) :=
  ⟨rfl, by decide,
   update_metadata_merges storeFix "r1" [("status", JVal.s "running")]
     "now2" mdFix rfl (by decide)⟩

/-! ## Claim C9 -/

/-- Claim C9: each configuration error is fatal and raised immediately,
with no retry and no partial result: a nonexistent corpus base directory
fails `indexerInit` with a file-not-found error, a missing prompt
template fails `load_prompt_template` with a not-found error listing the
available template names, and a missing run (or missing `metadata.json`)
fails `load_metadata` with a not-found error.  Each embedded function
returns the error as its immediate result; no retry path exists in any
of the three. -/
theorem configuration_errors_fatal :
    (∀ (fsExists : String → Bool) (base : String), fsExists base = false →
      indexerInit fsExists base =
        Except.error ("Base directory not found: " ++ base)) ∧
    (∀ (templates : List (String × String)) (name : String),
      templates.lookup name = none →
      load_prompt_template templates name =
        Except.error ("Template '" ++ name ++ "' not found. " ++
          "Available templates: " ++ pyJoin ", " (templates.map Prod.fst))) ∧
    (∀ (s : Store) (rid : String), (getRun s rid).bind (·.metadata) = none →
      load_metadata s rid =
        Except.error ("Metadata not found for run_id: " ++ rid)) := by
  refine ⟨?_, ?_, ?_⟩
  · intro fsExists base h
    unfold indexerInit
    rw [h]
    rfl
  · intro templates name h
    show (match templates.lookup name with
      | some t => Except.ok t
      | none =>
        Except.error ("Template '" ++ name ++ "' not found. " ++
          "Available templates: " ++
          pyJoin ", " (templates.map Prod.fst))) = _
    rw [h]
  · intro s rid h
    unfold load_metadata
    cases hrun : getRun s rid with
    | none => rfl
    | some rd =>
      rw [hrun] at h
      have h2 : rd.metadata = none := h
      show (match rd.metadata with
        | some md => Except.ok md
        | none =>
          Except.error ("Metadata not found for run_id: " ++ rid)) = _
      rw [h2]

/-- Claim C9 witness: the three errors at concrete inputs. -/
theorem configuration_errors_fatal_witness :
    ((fun _ => false : String → Bool) "no/corpus" = false ∧
      indexerInit (fun _ => false) "no/corpus" =
        Except.error ("Base directory not found: " ++ "no/corpus")) ∧
    (tpsFix.lookup "nope" = none ∧
      load_prompt_template tpsFix "nope" =
        Except.error ("Template '" ++ "nope" ++ "' not found. " ++
          "Available templates: " ++ pyJoin ", " (tpsFix.map Prod.fst))) ∧
    ((getRun storeFix "absent").bind (·.metadata) = none ∧
      load_metadata storeFix "absent" =
        Except.error ("Metadata not found for run_id: " ++ "absent")) :=
  ⟨⟨rfl, configuration_errors_fatal.1 (fun _ => false) "no/corpus" rfl⟩,
   ⟨rfl, configuration_errors_fatal.2.1 tpsFix "nope" rfl⟩,
   ⟨rfl, configuration_errors_fatal.2.2 storeFix "absent" rfl⟩⟩

/-! ## Claim C10 -/

/-- Claim C10: `create_run` with an explicit `run_id` whose directory
already exists does not fail: the `mkdir(exist_ok=True)` pair is a
no-op, `metadata.json` is overwritten with the fresh record (status
`created`, empty parameters, documents and results — see
`freshMetadata`), and the run's `single_qa` result files and
`aggregate_result.txt` are untouched, as is every other run. -/
theorem create_run_existing_keeps_results (s : Store)
    (rid today now : String) (rd : RunDir) (h : getRun s rid = some rd) :
    (create_run s (some rid) today now).2 = rid ∧
    getRun (create_run s (some rid) today now).1 rid =
      some { rd with metadata := some (freshMetadata rid now) } ∧
    ∀ rid2, rid2 ≠ rid →
      getRun (create_run s (some rid) today now).1 rid2 = getRun s rid2 := by
  have hsome : (getRun s rid).isSome := by rw [h]; rfl
  have hens : ensureRun s rid = s := ensureRun_of_isSome s rid hsome
  refine ⟨rfl, ?_, ?_⟩
  · show getRun (save_metadata (ensureRun s rid) rid
      (freshMetadata rid now)) rid = _
    rw [hens, getRun_save_metadata_self s rid (freshMetadata rid now), h]
    rfl
  · intro rid2 hne
    show getRun (save_metadata (ensureRun s rid) rid
      (freshMetadata rid now)) rid2 = _
    rw [hens]
    exact getRun_save_metadata_ne s rid rid2 hne (freshMetadata rid now)

/-- Claim C10 witness: re-creating the fixture run `r1` overwrites its
metadata and keeps its two persisted result files and its aggregate. -/
theorem create_run_existing_keeps_results_witness :
    (getRun storeFix "r1" = some ⟨"r1", some mdFix,
      [("000_a_x.json", resFixA), ("001_b_y.json", resFixB)],
      none, none⟩) ∧
    ((create_run storeFix (some "r1") "2026-01-01" "now3").2 = "r1" ∧
    getRun (create_run storeFix (some "r1") "2026-01-01" "now3").1 "r1" =
      some { (⟨"r1", some mdFix,
        [("000_a_x.json", resFixA), ("001_b_y.json", resFixB)],
        none, none⟩ : RunDir) with
          metadata := some (freshMetadata "r1" "now3") } ∧
    ∀ rid2, rid2 ≠ "r1" →
      getRun (create_run storeFix (some "r1") "2026-01-01" "now3").1 rid2 =
        getRun storeFix rid2) :=
  ⟨rfl, create_run_existing_keeps_results storeFix "r1" "2026-01-01" "now3"
    ⟨"r1", some mdFix, [("000_a_x.json", resFixA), ("001_b_y.json", resFixB)],
      none, none⟩ rfl⟩

/-! ## Helper lemmas: run-id generation -/

theorem ten_pow_le_imp_lt_digits_len :
    ∀ (L fuel n : Nat), n < fuel → 10 ^ L ≤ n →
      L < (decDigitsRevFuel fuel n).length := by
  intro L
  induction L with
  | zero =>
    intro fuel n hfuel hpow
    cases fuel with
    | zero => omega
    | succ f =>
      show 0 < (if n < 10 then [digitChar n]
        else digitChar (n % 10) :: decDigitsRevFuel f (n / 10)).length
      by_cases h : n < 10
      · rw [if_pos h]
        simp
      · rw [if_neg h]
        simp
  | succ L ih =>
    intro fuel n hfuel hpow
    cases fuel with
    | zero => omega
    | succ f =>
      have h10 : ¬n < 10 := by
        have hbig : (10 : Nat) ≤ 10 ^ (L + 1) := by
          calc (10 : Nat) = 10 ^ 1 := (pow_one 10).symm
          _ ≤ 10 ^ (L + 1) := Nat.pow_le_pow_right (by omega) (by omega)
        omega
      show Nat.succ L < (if n < 10 then [digitChar n]
        else digitChar (n % 10) :: decDigitsRevFuel f (n / 10)).length
      rw [if_neg h10]
      have hdiv : n / 10 < f := by
        have hlt : n / 10 < n := Nat.div_lt_self (by omega) (by omega)
        omega
      have hpow2 : 10 ^ L ≤ n / 10 := by
        rw [Nat.le_div_iff_mul_le (by omega)]
        calc 10 ^ L * 10 = 10 ^ (L + 1) := (pow_succ 10 L).symm
        _ ≤ n := hpow
      have := ih f (n / 10) hdiv hpow2
      simp only [List.length_cons]
      omega

theorem string_data_append (a b : String) :
    (a ++ b).data = a.data ++ b.data := by
  cases a
  cases b
  rfl

theorem digits_le_mkRunId_length (today : String) (n : Nat) :
    (decDigitsRev n).length ≤ (mkRunId today n).data.length := by
  show (decDigitsRev n).length ≤ ((today ++ "_") ++ pad4 n).data.length
  rw [string_data_append, List.length_append]
  have hp : (pad4 n).data.length =
      (4 - (decDigitsRev n).length) + (decDigitsRev n).length := by
    show ((String.mk (List.replicate (4 - (decDigitsRev n).length) '0') ++
      decRepr n).data.length) = _
    rw [string_data_append, List.length_append]
    show (List.replicate (4 - (decDigitsRev n).length) '0').length +
      ((decDigitsRev n).reverse).length = _
    rw [List.length_replicate, List.length_reverse]
  omega

theorem length_le_foldr_max :
    ∀ (names : List String) (x : String), x ∈ names →
      x.data.length ≤ names.foldr (fun n acc => max n.data.length acc) 0 := by
  intro names
  induction names with
  | nil => intro x hx; exact absurd hx (List.not_mem_nil x)
  | cons y t ih =>
    intro x hx
    rcases List.mem_cons.mp hx with he | ht
    · subst he
      exact Nat.le_max_left _ _
    · exact Nat.le_trans (ih x ht) (Nat.le_max_right _ _)

theorem mkRunId_not_mem_of_big (s : Store) (today : String) (n : Nat)
    (h : 10 ^ maxNameLen s ≤ n) : mkRunId today n ∉ dirNames s := by
  intro hmem
  have h1 : (mkRunId today n).data.length ≤ maxNameLen s :=
    length_le_foldr_max (dirNames s) _ hmem
  have h2 : maxNameLen s < (decDigitsRevFuel (n + 1) n).length :=
    ten_pow_le_imp_lt_digits_len (maxNameLen s) (n + 1) n (by omega) h
  have h2b : maxNameLen s < (decDigitsRev n).length := h2
  have h3 := digits_le_mkRunId_length today n
  omega

theorem genLoop_shape (dirs : List String) (today : String) :
    ∀ fuel n, ∃ m, genLoop dirs today fuel n = mkRunId today m := by
  intro fuel
  induction fuel with
  | zero => intro n; exact ⟨n, rfl⟩
  | succ f ih =>
    intro n
    show (∃ m, (if mkRunId today n ∈ dirs then genLoop dirs today f (n + 1)
      else mkRunId today n) = mkRunId today m)
    by_cases h : mkRunId today n ∈ dirs
    · rw [if_pos h]
      exact ih (n + 1)
    · rw [if_neg h]
      exact ⟨n, rfl⟩

theorem genLoop_not_mem (dirs : List String) (today : String) :
    ∀ fuel n, (∃ i, i < fuel ∧ mkRunId today (n + i) ∉ dirs) →
      genLoop dirs today fuel n ∉ dirs := by
  intro fuel
  induction fuel with
  | zero =>
    rintro n ⟨i, hi, _⟩
    omega
  | succ f ih =>
    rintro n ⟨i, hi, hfree⟩
    show (if mkRunId today n ∈ dirs then genLoop dirs today f (n + 1)
      else mkRunId today n) ∉ dirs
    by_cases hmem : mkRunId today n ∈ dirs
    · rw [if_pos hmem]
      apply ih
      have hine : i ≠ 0 := by
        rintro rfl
        rw [Nat.add_zero] at hfree
        exact hfree hmem
      refine ⟨i - 1, by omega, ?_⟩
      have harith : n + 1 + (i - 1) = n + i := by omega
      rw [harith]
      exact hfree
    · rw [if_neg hmem]
      exact hmem

theorem generate_run_id_not_mem (s : Store) (today : String) :
    generate_run_id s today ∉ dirNames s := by
  apply genLoop_not_mem
  by_cases hc : 10 ^ maxNameLen s ≤
      ((list_runs s).filter fun r => pyStartsWith r today).length + 1
  · refine ⟨0, pow_pos (by omega) _, ?_⟩
    rw [Nat.add_zero]
    exact mkRunId_not_mem_of_big s today _ hc
  · have hlt : ((list_runs s).filter fun r =>
        pyStartsWith r today).length + 1 < 10 ^ maxNameLen s := by omega
    refine ⟨10 ^ maxNameLen s -
      (((list_runs s).filter fun r => pyStartsWith r today).length + 1),
      ?_, ?_⟩
    · have hpos : 0 < 10 ^ maxNameLen s := pow_pos (by omega) _
      have hsq : 10 ^ (maxNameLen s + 1) = 10 ^ maxNameLen s * 10 :=
        pow_succ 10 (maxNameLen s)
      omega
    · have harith : ((list_runs s).filter fun r =>
          pyStartsWith r today).length + 1 +
          (10 ^ maxNameLen s -
            (((list_runs s).filter fun r => pyStartsWith r today).length + 1)) =
          10 ^ maxNameLen s := by omega
      rw [harith]
      exact mkRunId_not_mem_of_big s today _ (Nat.le_refl _)

theorem generate_run_id_shape (s : Store) (today : String) :
    ∃ m, generate_run_id s today = mkRunId today m :=
  genLoop_shape (dirNames s) today _ _

theorem dirNames_save_metadata (s : Store) (rid : String)
    (md : List (String × JVal)) :
    dirNames (save_metadata s rid md) = dirNames s :=
  dirNames_updateRun s rid _ (fun _ => rfl)

/-! ## Claim C7 -/

/-- Claim C7: auto-generated run ids have the form
`today ++ "_" ++ zero-padded sequence number` and never name an existing
run directory (the collision loop increments past pre-seeded
directories); creating two runs on the same date therefore yields
distinct ids that differ only in the numeric suffix.  Universally
quantified over the store, so arbitrary pre-seeded directories are
covered. -/
theorem run_id_generation_unique (s : Store) (today now now2 : String) :
    (∃ n, generate_run_id s today = mkRunId today n) ∧
    generate_run_id s today ∉ dirNames s ∧
    (∃ n, (create_run s none today now).2 = mkRunId today n) ∧
    (∃ m, (create_run (create_run s none today now).1 none today now2).2 =
      mkRunId today m) ∧
    (create_run (create_run s none today now).1 none today now2).2 ≠
      (create_run s none today now).2 := by
  have h1 := generate_run_id_shape s today
  have h2 := generate_run_id_not_mem s today
  have hmem : (create_run s none today now).2 ∈
      dirNames (create_run s none today now).1 := by
    show generate_run_id s today ∈
      dirNames (save_metadata (ensureRun s (generate_run_id s today))
        (generate_run_id s today) (freshMetadata (generate_run_id s today) now))
    rw [dirNames_save_metadata]
    exact mem_dirNames_ensureRun s (generate_run_id s today)
  have h3 := generate_run_id_not_mem (create_run s none today now).1 today
  refine ⟨h1, h2, h1, generate_run_id_shape _ today, ?_⟩
  intro he
  have he2 : (create_run s none today now).2 ∈
      dirNames (create_run s none today now).1 := hmem
  rw [← he] at he2
  exact h3 he2

/-! ## Helper lemmas: the reduce-only resume path -/

theorem getRun_writeDebugAnswers_self (s : Store) (rid p : String)
    (rd : RunDir) (h : getRun s rid = some rd) :
    ∃ rdB, getRun (writeDebugAnswers s rid p) rid = some rdB ∧
      rdB.name = rd.name ∧ rdB.metadata = rd.metadata ∧
      rdB.singleQA = rd.singleQA := by
  unfold writeDebugAnswers
  cases pyFindSub p startMarker with
  | none => exact ⟨rd, h, rfl, rfl, rfl⟩
  | some a =>
    cases pyFindSub p endMarker with
    | none => exact ⟨rd, h, rfl, rfl, rfl⟩
    | some b =>
      refine ⟨{ rd with debugAnswers := some (pySlice p a (b + pyLen endMarker)) }, ?_, rfl, rfl, rfl⟩
      rw [getRun_updateRun_self s rid (fun rd => { rd with debugAnswers := some (pySlice p a (b + pyLen endMarker)) }) (fun _ => rfl), h]
      rfl

theorem getRun_writeDebugAnswers_ne (s : Store) (rid rid2 p : String)
    (hne : rid2 ≠ rid) :
    getRun (writeDebugAnswers s rid p) rid2 = getRun s rid2 := by
  unfold writeDebugAnswers
  cases pyFindSub p startMarker with
  | none => rfl
  | some a =>
    cases pyFindSub p endMarker with
    | none => rfl
    | some b =>
      exact getRun_updateRun_ne s rid rid2 hne (fun rd => { rd with debugAnswers := some (pySlice p a (b + pyLen endMarker)) }) (fun _ => rfl)

theorem update_metadata_ok (s : Store) (rid : String)
    (u : List (String × JVal)) (now : String) (rd : RunDir)
    (md : List (String × JVal)) (hrun : getRun s rid = some rd)
    (hmd : rd.metadata = some md) :
    update_metadata s rid u now = Except.ok (save_metadata s rid
      (dictSet (dictUpdate md u) "updated_at" (JVal.s now))) := by
  have hlm : load_metadata s rid = Except.ok md := by
    unfold load_metadata
    rw [hrun]
    show (match rd.metadata with
      | some md => Except.ok md
      | none => Except.error ("Metadata not found for run_id: " ++ rid)) = _
    rw [hmd]
  show (match load_metadata s rid with
    | Except.error e => Except.error e
    | Except.ok md => Except.ok (save_metadata s rid
        (dictSet (dictUpdate md u) "updated_at" (JVal.s now)))) = _
  rw [hlm]

theorem run_aggregate_only_spec (s : Store) (rid t now : String)
    (aggTemplates : List (String × String))
    (backend : String → Except String LLMResp)
    (rd : RunDir) (md params : List (String × JVal))
    (q st tpl : String) (np : Nat)
    (hrun : getRun s rid = some rd) (hmd : rd.metadata = some md)
    (hparams : jGetObj md "parameters" = some params)
    (hq : jGetStr params "question" = some q)
    (hst : jGetStr params "single_template" = some st)
    (hpar : jGetNat params "parallel" = some np)
    (htpl : aggTemplates.lookup t = some tpl)
    (hb : ∀ p, ∃ resp, backend p = Except.ok resp) :
    ∃ s2 rd2 ans tok,
      run_aggregate_only s rid t aggTemplates backend now =
        Except.ok (s2, rid) ∧
      getRun s2 rid = some rd2 ∧
      rd2.singleQA = rd.singleQA ∧
      rd2.metadata = some (dictSet (dictUpdate md
        [("aggregate_template", JVal.s t), ("aggregate_time", JVal.n 0),
         ("aggregate_tokens", JVal.n tok)]) "updated_at" (JVal.s now)) ∧
      rd2.aggregate = some (aggregateOnlyReport rid now q st t np
        (load_single_qa_results s rid) ans (mdPrevSingleTime md) tok) ∧
      (∀ ridx, ridx ≠ rid → getRun s2 ridx = getRun s ridx) := by
  have hlm : load_metadata s rid = Except.ok md := by
    unfold load_metadata
    rw [hrun]
    show (match rd.metadata with
      | some md => Except.ok md
      | none => Except.error ("Metadata not found for run_id: " ++ rid)) = _
    rw [hmd]
  have hpr : create_aggregate_prompt aggTemplates q
      (load_single_qa_results s rid) t =
      Except.ok (aggPrompt tpl q (load_single_qa_results s rid)) := by
    unfold create_aggregate_prompt
    rw [htpl]
  obtain ⟨resp, hresp⟩ := hb (aggPrompt tpl q (load_single_qa_results s rid))
  have hphase : execute_aggregate_phase s rid q
      (load_single_qa_results s rid) t aggTemplates backend =
      Except.ok (writeDebugAnswers s rid
        (aggPrompt tpl q (load_single_qa_results s rid)),
        pyStrip resp.text, resp.total_tokens) := by
    unfold execute_aggregate_phase
    rw [hpr]
    show (match backend (aggPrompt tpl q (load_single_qa_results s rid)) with
      | Except.error e =>
        Except.error ("Aggregate処理エラー: " ++ wrapLLMError e)
      | Except.ok resp =>
        Except.ok (writeDebugAnswers s rid
          (aggPrompt tpl q (load_single_qa_results s rid)),
          pyStrip resp.text, resp.total_tokens)) = _
    rw [hresp]
  obtain ⟨rdB, hrunB, hnmB, hmdB, hsqB⟩ := getRun_writeDebugAnswers_self s rid
    (aggPrompt tpl q (load_single_qa_results s rid)) rd hrun
  have hrunC : getRun (save_aggregate_result
      (writeDebugAnswers s rid (aggPrompt tpl q (load_single_qa_results s rid)))
      rid (aggregateOnlyReport rid now q st t np (load_single_qa_results s rid)
        (pyStrip resp.text) (mdPrevSingleTime md) (resp.total_tokens.getD 0)))
      rid = some { rdB with aggregate := some (aggregateOnlyReport rid now q st
        t np (load_single_qa_results s rid) (pyStrip resp.text)
        (mdPrevSingleTime md) (resp.total_tokens.getD 0)) } := by
    rw [getRun_save_aggregate_self, hrunB]
    rfl
  have hmdC : ({ rdB with aggregate := some (aggregateOnlyReport rid now q st
      t np (load_single_qa_results s rid) (pyStrip resp.text)
      (mdPrevSingleTime md) (resp.total_tokens.getD 0)) } : RunDir).metadata =
      some md := by
    show rdB.metadata = some md
    rw [hmdB, hmd]
  have hupd := update_metadata_ok (save_aggregate_result
      (writeDebugAnswers s rid (aggPrompt tpl q (load_single_qa_results s rid)))
      rid (aggregateOnlyReport rid now q st t np (load_single_qa_results s rid)
        (pyStrip resp.text) (mdPrevSingleTime md) (resp.total_tokens.getD 0)))
      rid [("aggregate_template", JVal.s t), ("aggregate_time", JVal.n 0),
        ("aggregate_tokens", JVal.n (resp.total_tokens.getD 0))] now
      _ md hrunC hmdC
  refine ⟨save_metadata (save_aggregate_result
      (writeDebugAnswers s rid (aggPrompt tpl q (load_single_qa_results s rid)))
      rid (aggregateOnlyReport rid now q st t np (load_single_qa_results s rid)
        (pyStrip resp.text) (mdPrevSingleTime md) (resp.total_tokens.getD 0)))
      rid (dictSet (dictUpdate md
        [("aggregate_template", JVal.s t), ("aggregate_time", JVal.n 0),
         ("aggregate_tokens", JVal.n (resp.total_tokens.getD 0))])
        "updated_at" (JVal.s now)),
    ⟨rdB.name,
     some (dictSet (dictUpdate md
       [("aggregate_template", JVal.s t), ("aggregate_time", JVal.n 0),
        ("aggregate_tokens", JVal.n (resp.total_tokens.getD 0))])
       "updated_at" (JVal.s now)),
     rdB.singleQA,
     some (aggregateOnlyReport rid now q st t np (load_single_qa_results s rid)
       (pyStrip resp.text) (mdPrevSingleTime md) (resp.total_tokens.getD 0)),
     rdB.debugAnswers⟩,
    pyStrip resp.text, resp.total_tokens.getD 0, ?_, ?_, ?_, ?_, ?_, ?_⟩
  · simp only [run_aggregate_only, hlm, hparams, hq, hphase, hst, hpar, hupd]
  · rw [getRun_save_metadata_self, hrunC]
    rfl
  · show rdB.singleQA = rd.singleQA
    exact hsqB
  · rfl
  · rfl
  · intro ridx hne
    rw [getRun_save_metadata_ne _ _ _ hne, getRun_save_aggregate_ne _ _ _ hne,
      getRun_writeDebugAnswers_ne s rid ridx _ hne]

theorem load_single_qa_results_length (s : Store) (rid : String)
    (rd : RunDir) (hrun : getRun s rid = some rd) :
    (load_single_qa_results s rid).length = rd.singleQA.length := by
  unfold load_single_qa_results
  rw [hrun]
  show ((rd.singleQA.insertionSort fun a b =>
    pyStrLE a.1 b.1 = true).map (·.2)).length = _
  rw [List.length_map, List.length_insertionSort]

/-! ## Claim C4 -/

/-- Claim C4: reduce-only resume.  For a run with persisted map results
and metadata, `run_aggregate_only` succeeds and writes exactly one
aggregate result (`aggregate_result.txt`, the run's single `aggregate`
slot) whose report enumerates one `reportDocLine` per loaded map result,
with the number of loaded results equal to the number of persisted
`single_qa` files (last conjunct: it references all N documents); a
second invocation with a different aggregate template succeeds as well,
overwrites the aggregate slot with the new report, and both invocations
leave the persisted map result files unchanged
(`rd1.singleQA = rd.singleQA`, `rd2.singleQA = rd.singleQA`). -/
theorem run_aggregate_only_twice (s : Store)
    (rid t1 t2 now now2 : String) (aggTemplates : List (String × String))
    (backend : String → Except String LLMResp)
    (rd : RunDir) (md params : List (String × JVal))
    (q st tpl1 tpl2 : String) (np : Nat)
    (hrun : getRun s rid = some rd) (hmd : rd.metadata = some md)
    (hparams : jGetObj md "parameters" = some params)
    (hq : jGetStr params "question" = some q)
    (hst : jGetStr params "single_template" = some st)
    (hpar : jGetNat params "parallel" = some np)
    (htpl1 : aggTemplates.lookup t1 = some tpl1)
    (htpl2 : aggTemplates.lookup t2 = some tpl2)
    (hb : ∀ p, ∃ resp, backend p = Except.ok resp) :
    ∃ s1 s2 rd1 rd2 ans1 ans2 tok1 tok2,
      run_aggregate_only s rid t1 aggTemplates backend now =
        Except.ok (s1, rid) ∧
      run_aggregate_only s1 rid t2 aggTemplates backend now2 =
        Except.ok (s2, rid) ∧
      getRun s1 rid = some rd1 ∧ getRun s2 rid = some rd2 ∧
      rd1.singleQA = rd.singleQA ∧ rd2.singleQA = rd.singleQA ∧
      rd1.aggregate = some (aggregateOnlyReport rid now q st t1 np
        (load_single_qa_results s rid) ans1 (mdPrevSingleTime md) tok1) ∧
      rd2.aggregate = some (aggregateOnlyReport rid now2 q st t2 np
        (load_single_qa_results s rid) ans2 (mdPrevSingleTime md) tok2) ∧
      (load_single_qa_results s rid).length = rd.singleQA.length := by
  obtain ⟨s1, rd1, ans1, tok1, heq1, hrun1, hsq1, hmd1, hagg1, hfr1⟩ :=
    run_aggregate_only_spec s rid t1 now aggTemplates backend rd md params
      q st tpl1 np hrun hmd hparams hq hst hpar htpl1 hb
  have hndu : ((([("aggregate_template", JVal.s t1),
      ("aggregate_time", JVal.n 0), ("aggregate_tokens", JVal.n tok1)]) :
      List (String × JVal)).map Prod.fst).Nodup := by
    simp
  have hparams1 : jGetObj (dictSet (dictUpdate md
      [("aggregate_template", JVal.s t1), ("aggregate_time", JVal.n 0),
       ("aggregate_tokens", JVal.n tok1)]) "updated_at" (JVal.s now))
      "parameters" = some params := by
    unfold jGetObj at hparams ⊢
    rw [dictSet_lookup_ne _ _ _ _ (by decide),
      dictUpdate_lookup _ md hndu]
    have h0 : (([("aggregate_template", JVal.s t1),
        ("aggregate_time", JVal.n 0), ("aggregate_tokens", JVal.n tok1)]) :
        List (String × JVal)).lookup "parameters" = none := rfl
    rw [h0, Option.none_or]
    exact hparams
  have hprev1 : mdPrevSingleTime (dictSet (dictUpdate md
      [("aggregate_template", JVal.s t1), ("aggregate_time", JVal.n 0),
       ("aggregate_tokens", JVal.n tok1)]) "updated_at" (JVal.s now)) =
      mdPrevSingleTime md := by
    unfold mdPrevSingleTime jGetObj
    rw [dictSet_lookup_ne _ _ _ _ (by decide),
      dictUpdate_lookup _ md hndu]
    have h0 : (([("aggregate_template", JVal.s t1),
        ("aggregate_time", JVal.n 0), ("aggregate_tokens", JVal.n tok1)]) :
        List (String × JVal)).lookup "results" = none := rfl
    rw [h0, Option.none_or]
  have hload1 : load_single_qa_results s1 rid =
      load_single_qa_results s rid := by
    unfold load_single_qa_results
    rw [hrun1, hrun]
    show ((rd1.singleQA.insertionSort fun a b =>
      pyStrLE a.1 b.1 = true).map (·.2)) = _
    rw [hsq1]
  obtain ⟨s2, rd2, ans2, tok2, heq2, hrun2, hsq2, hmd2, hagg2, hfr2⟩ :=
    run_aggregate_only_spec s1 rid t2 now2 aggTemplates backend rd1
      (dictSet (dictUpdate md
        [("aggregate_template", JVal.s t1), ("aggregate_time", JVal.n 0),
         ("aggregate_tokens", JVal.n tok1)]) "updated_at" (JVal.s now))
      params q st tpl2 np hrun1 hmd1 hparams1 hq hst hpar htpl2 hb
  rw [hload1, hprev1] at hagg2
  exact ⟨s1, s2, rd1, rd2, ans1, ans2, tok1, tok2, heq1, heq2, hrun1, hrun2,
    hsq1, hsq2.trans hsq1, hagg1, hagg2,
    load_single_qa_results_length s rid rd hrun⟩

/-- Claim C4 witness: the fixture run with two persisted map results,
aggregated twice with the two fixture templates. -/
theorem run_aggregate_only_twice_witness :
    (getRun storeFix "r1" = some ⟨"r1", some mdFix,
      [("000_a_x.json", resFixA), ("001_b_y.json", resFixB)],
      none, none⟩) ∧
    (aggFix.lookup "focused" = some "AGG {question} {document_answers}") ∧
    (aggFix.lookup "concise" = some "SHORT {question} {document_answers}") ∧
    (∀ p, ∃ resp, backendAggFix p = Except.ok resp) ∧
    ∃ s1 s2 rd1 rd2 ans1 ans2 tok1 tok2,
      run_aggregate_only storeFix "r1" "focused" aggFix backendAggFix "t1" =
        Except.ok (s1, "r1") ∧
      run_aggregate_only s1 "r1" "concise" aggFix backendAggFix "t2" =
        Except.ok (s2, "r1") ∧
      getRun s1 "r1" = some rd1 ∧ getRun s2 "r1" = some rd2 ∧
      rd1.singleQA = (⟨"r1", some mdFix,
        [("000_a_x.json", resFixA), ("001_b_y.json", resFixB)],
        none, none⟩ : RunDir).singleQA ∧
      rd2.singleQA = (⟨"r1", some mdFix,
        [("000_a_x.json", resFixA), ("001_b_y.json", resFixB)],
        none, none⟩ : RunDir).singleQA ∧
      rd1.aggregate = some (aggregateOnlyReport "r1" "t1" "q?" "focused"
        "focused" 3 (load_single_qa_results storeFix "r1") ans1
        (mdPrevSingleTime mdFix) tok1) ∧
      rd2.aggregate = some (aggregateOnlyReport "r1" "t2" "q?" "focused"
        "concise" 3 (load_single_qa_results storeFix "r1") ans2
        (mdPrevSingleTime mdFix) tok2) ∧
      (load_single_qa_results storeFix "r1").length = (⟨"r1", some mdFix,
        [("000_a_x.json", resFixA), ("001_b_y.json", resFixB)],
        none, none⟩ : RunDir).singleQA.length :=
  ⟨rfl, rfl, rfl, fun _ => ⟨⟨"final answer", some 11⟩, rfl⟩,
   run_aggregate_only_twice storeFix "r1" "focused" "concise" "t1" "t2"
     aggFix backendAggFix
     ⟨"r1", some mdFix, [("000_a_x.json", resFixA), ("001_b_y.json", resFixB)],
       none, none⟩
     mdFix [("question", JVal.s "q?"), ("single_template", JVal.s "focused"),
       ("parallel", JVal.n 3)] "q?" "focused"
     "AGG {question} {document_answers}" "SHORT {question} {document_answers}"
     3 rfl rfl rfl rfl rfl rfl rfl rfl
     (fun _ => ⟨⟨"final answer", some 11⟩, rfl⟩)⟩

end DRED
